import Mathlib

/-!
Verification development for the Wire Print Project repository
(`fix_sheet.py`, `build_main_from_wires.py`).

The Python scripts manipulate Excel-2003 SpreadsheetML tables through
`xml.etree.ElementTree`.  We embed the table fragment the transformations
touch: a cell is its optional explicit `ss:Index` attribute together with
its optional `ss:Data` node, and a `ss:Data` node is a `(text, ss:Type)`
pair (`fix_sheet.py` lines 36-64).  A row is the ordered list of its cells,
a table the ordered list of its rows.  All strings are assumed ASCII (the
data the scripts process is ASCII); Python `str.strip`/`\s` are modelled
with Lean whitespace predicates, and in-place mutation of an `Element` is
modelled by returning the updated row together with the list index of the
cell that the Python code holds a reference to.
-/

/-- A `ss:Cell` element: optional explicit `ss:Index` attribute and optional
`ss:Data` child, the latter carrying `(text, ss:Type)`.
(`fix_sheet.py` lines 46-64.) -/
structure SCell where
  ssIndex : Option Nat
  sdata : Option (String × String)
deriving DecidableEq

/-- A `ss:Row` element: its list of `ss:Cell` children. -/
abbrev SRow := List SCell

/-- The default cell used to totalise list indexing. -/
def blankCell : SCell := ⟨none, none⟩

/-- `get_cell_text` (`fix_sheet.py` lines 46-48): text of the `Data` node,
or `""` when the node is absent. -/
def getCellText (c : SCell) : String :=
  match c.sdata with
  | some (t, _) => t
  | none => ""

/-- `set_cell_text` (`fix_sheet.py` lines 50-55): (re)create the `Data` node
with the given text and `ss:Type`. -/
def setCellData (c : SCell) (text ty : String) : SCell :=
  { c with sdata := some (text, ty) }

/-- Column positions of the cells of a row, starting the running cursor at
`pos`: an explicit `ss:Index` overrides the cursor and the cursor continues
from there (`enumerate_cells_with_positions`, `fix_sheet.py` lines 36-44). -/
def positionsFrom (pos : Nat) : List SCell → List Nat
  | [] => []
  | c :: cs =>
    let p := c.ssIndex.getD pos
    p :: positionsFrom (p + 1) cs

/-- Column positions of a row (cursor starts at 1). -/
def colPositions (r : SRow) : List Nat := positionsFrom 1 r

/-- Index (into the cell list) of the LAST cell occupying a given column
position, mirroring `dict(enumerate_cells_with_positions(row))`, where a
later duplicate key wins. -/
def lastIdxOf (k : Nat) : List Nat → Option Nat
  | [] => none
  | p :: ps =>
    match lastIdxOf k ps with
    | some i => some (i + 1)
    | none => if p = k then some 0 else none

/-- List index of the cell a `dict(...)[col]` lookup yields. -/
def findColIdx (r : SRow) (col : Nat) : Option Nat :=
  lastIdxOf col (colPositions r)

/-- Nth element of a list as an `Option`. -/
def nthCell (r : SRow) (i : Nat) : SCell := r.getD i blankCell

/-- The cell returned by `pos2cell.get(col)`. -/
def cellAtCol (r : SRow) (col : Nat) : Option SCell :=
  (findColIdx r col).map (nthCell r)

/-- `get_cell_text(pos2cell.get(col)) if col in pos2cell else ""`. -/
def textAtCol (r : SRow) (col : Nat) : String :=
  ((cellAtCol r col).map getCellText).getD ""

/-- The `(text, type)` payload stored at a column, if any. -/
def dataAtCol (r : SRow) (col : Nat) : Option (String × String) :=
  (cellAtCol r col).bind SCell.sdata

/-- Replace the cell at list index `i` by `f` of it (in-place mutation of
the Python `Element` object the caller holds). -/
def modifyIdx : SRow → Nat → (SCell → SCell) → SRow
  | [], _, _ => []
  | c :: cs, 0, f => f c :: cs
  | c :: cs, i + 1, f => c :: modifyIdx cs i f

/-- `get_or_create_cell_at_position` (`fix_sheet.py` lines 57-64): return the
existing cell at the column if present, else append a fresh cell tagged with
that column index.  The result is the updated row and the list index of the
cell the Python function returns a reference to. -/
def getOrCreateCellAtPosition (r : SRow) (col : Nat) : SRow × Nat :=
  match findColIdx r col with
  | some i => (r, i)
  | none => (r ++ [⟨some col, none⟩], r.length)

/-- `set_cell_text(get_or_create_cell_at_position(row, col), text, ty)`. -/
def setTextAtCol (r : SRow) (col : Nat) (text ty : String) : SRow :=
  let p := getOrCreateCellAtPosition r col
  modifyIdx p.1 p.2 (fun c => setCellData c text ty)

-- ===== Python str primitives, modelled structurally (ASCII assumed) =====

/-- Python `str.strip()`: drop whitespace from both ends. -/
def pyStrip (s : String) : String :=
  (((s.toList.dropWhile (fun c => c.isWhitespace)).reverse.dropWhile
    (fun c => c.isWhitespace)).reverse).asString

/-- Python `str.upper()` (ASCII). -/
def pyUpper (s : String) : String := (s.toList.map Char.toUpper).asString

/-- Python `str.lower()` (ASCII). -/
def pyLower (s : String) : String := (s.toList.map Char.toLower).asString

/-- Python `str.endswith`. -/
def strEndsWith (s suffix : String) : Bool :=
  suffix.toList.isSuffixOf s.toList

/-- Maximal runs of characters satisfying `p` (used for `\w+` runs and for
whitespace splitting). -/
def tokenRuns (p : Char → Bool) : List Char → List Char → List (List Char)
  | [], acc => if acc.isEmpty then [] else [acc.reverse]
  | c :: cs, acc =>
    if p c then tokenRuns p cs (c :: acc)
    else if acc.isEmpty then tokenRuns p cs []
    else acc.reverse :: tokenRuns p cs []

-- ===== header row, header map =====

/-- `enumerate_cells_with_positions` (`fix_sheet.py` lines 36-44), keeping the
cells themselves. -/
def cellsWithPositionsFrom (pos : Nat) : List SCell → List (Nat × SCell)
  | [] => []
  | c :: cs =>
    let p := c.ssIndex.getD pos
    (p, c) :: cellsWithPositionsFrom (p + 1) cs

/-- Cells of a row with their column positions (cursor starts at 1). -/
def enumerateCellsWithPositions (r : SRow) : List (Nat × SCell) :=
  cellsWithPositionsFrom 1 r

/-- Lookup in an association list built by repeated Python dict assignment:
the LAST binding of a key wins. -/
def lastAssoc (k : String) : List (String × Nat) → Option Nat
  | [] => none
  | p :: rest =>
    match lastAssoc k rest with
    | some v => some v
    | none => if p.1 = k then some p.2 else none

/-- `header_map` (`fix_sheet.py` lines 73-79) as an ordered association list:
normalized nonblank header text paired with its column position.  The
normalizer is a parameter: `fix_sheet.py` uses `str.strip`, while
`build_main_from_wires.py` uses its `normalize_cell`. -/
def headerPairs (norm : String → String) (r : SRow) : List (String × Nat) :=
  (enumerateCellsWithPositions r).filterMap (fun pc =>
    let t := norm (getCellText pc.2)
    if t = "" then none else some (t, pc.1))

/-- Column of a header name per `header_map`, last duplicate winning. -/
def headerCol (norm : String → String) (r : SRow) (name : String) : Option Nat :=
  lastAssoc name (headerPairs norm r)

/-- Does some cell of the row have normalized text equal to the anchor?
(the inner loop of `find_header_row_index`). -/
def rowHasAnchor (norm : String → String) (anchor : String) (r : SRow) : Bool :=
  r.any (fun c => norm (getCellText c) == anchor)

/-- Index of the first row satisfying the anchor test (the `for i in range`
loop of `find_header_row_index`). -/
def findHeaderAux (norm : String → String) (anchor : String) : List SRow → Option Nat
  | [] => none
  | r :: rs =>
    if rowHasAnchor norm anchor r then some 0
    else (findHeaderAux norm anchor rs).map (· + 1)

/-- The `RuntimeError` message of `find_header_row_index` (the Python message
quotes the anchor; quotes elided here). -/
def headerNotFoundMsg : String := "Header row not found"

/-- `find_header_row_index` (`fix_sheet.py` lines 66-71 and
`build_main_from_wires.py` lines 121-126): scan the first
`min(scan_limit, len(rows))` rows for a cell whose normalized text equals
the anchor; raise (here: `Except.error`) if none. -/
def findHeaderRowIndex (norm : String → String) (rows : List SRow)
    (anchor : String) (scanLimit : Nat) : Except String Nat :=
  match findHeaderAux norm anchor (rows.take scanLimit) with
  | some i => Except.ok i
  | none => Except.error headerNotFoundMsg

/-- Header pairs with `fix_sheet.py`'s normalizer (`str.strip`). -/
def fsHeaderPairs (r : SRow) : List (String × Nat) := headerPairs pyStrip r

/-- Header column lookup with `fix_sheet.py`'s normalizer. -/
def fsHeaderCol (r : SRow) (name : String) : Option Nat :=
  lastAssoc name (fsHeaderPairs r)

-- ===== string helpers (ASCII assumed) =====

/-- `needle in hay` for char lists. -/
def isSubstrList (needle : List Char) : List Char → Bool
  | [] => needle.isPrefixOf []
  | c :: cs => needle.isPrefixOf (c :: cs) || isSubstrList needle cs

/-- Python `needle in hay` on strings. -/
def containsSubstr (needle hay : String) : Bool :=
  isSubstrList needle.toList hay.toList

/-- `_has_plcio` (`fix_sheet.py` lines 96-97): case-insensitive substring
test for PLCIO. -/
def plcioFlag (text : String) : Bool :=
  containsSubstr ("PLCIO") (pyUpper text)

/-- `os.path.basename` (POSIX separator). -/
def pathBasename (p : String) : String :=
  ((p.toList.reverse.takeWhile (fun c => c != '/')).reverse).asString

/-- Numeric value of a digit-char list (Python `int`). -/
def digitsToNat (ds : List Char) : Nat :=
  ds.foldl (fun n c => n * 10 + (c.toNat - 48)) 0

/-- Stem of `os.path.splitext`: cut at the last dot that has some non-dot
character before it; otherwise keep the whole name. -/
def splitextStem (base : String) : String :=
  let cs := base.toList
  let cut := ((List.range cs.length).filter (fun i =>
    (cs.getD i ' ' == '.') && !((cs.take i).all (fun c => c == '.')))).getLast?
  match cut with
  | some i => String.mk (cs.take i)
  | none => base

/-- Leftmost-match regex search: try the match function at every suffix,
earliest position winning (Python `re.search`). -/
def searchFirst (f : List Char → Option (List Char)) : List Char → Option (List Char)
  | [] => f []
  | c :: cs =>
    match f (c :: cs) with
    | some m => some m
    | none => searchFirst f cs

/-- Match `[sS]\d+[A-Za-z]?` anchored at the start of the char list
(`_section_re`, `fix_sheet.py` line 142). -/
def sectionMatchAt : List Char → Option (List Char)
  | [] => none
  | c :: rest =>
    if c == 's' || c == 'S' then
      let ds := rest.takeWhile (fun x => x.isDigit)
      if ds.isEmpty then none
      else
        match rest.drop ds.length with
        | a :: _ => if a.isAlpha then some (c :: ds ++ [a]) else some (c :: ds)
        | [] => some (c :: ds)
    else none

/-- Match `[pP][A-Za-z0-9]+` anchored at the start of the char list
(`_panel_re`, `fix_sheet.py` line 143). -/
def panelMatchAt : List Char → Option (List Char)
  | [] => none
  | c :: rest =>
    if c == 'p' || c == 'P' then
      let as := rest.takeWhile (fun x => x.isAlphanum)
      if as.isEmpty then none else some (c :: as)
    else none

/-- `parse_section_panel_from_filename` (`fix_sheet.py` lines 146-150). -/
def parseSectionPanelFromFilename (fname : String) : String × String :=
  let base := splitextStem (pathBasename fname)
  let s := searchFirst sectionMatchAt base.toList
  let p := searchFirst panelMatchAt base.toList
  ((s.map List.asString).getD ("null"), (p.map List.asString).getD ("null"))

/-- Full match of `^\s*(\d+)\s*-\s*([A-Za-z]+)\s*$` (`_wireid_re`,
`fix_sheet.py` line 141), returning the two capture groups. -/
def wireIdMatch (cs : List Char) : Option (List Char × List Char) :=
  let cs1 := cs.dropWhile (fun c => c.isWhitespace)
  let ds := cs1.takeWhile (fun c => c.isDigit)
  if ds.isEmpty then none
  else
    match (cs1.drop ds.length).dropWhile (fun c => c.isWhitespace) with
    | '-' :: cs2 =>
      let cs3 := cs2.dropWhile (fun c => c.isWhitespace)
      let ls := cs3.takeWhile (fun c => c.isAlpha)
      if ls.isEmpty then none
      else if ((cs3.drop ls.length).dropWhile (fun c => c.isWhitespace)).isEmpty then
        some (ds, ls)
      else none
    | _ => none

/-- `parse_gc` (`fix_sheet.py` lines 152-154): `18-WHT` becomes `18WHT`,
anything unmatched becomes the sentinel `null`. -/
def parseGc (text : String) : String :=
  match wireIdMatch (pyStrip text).toList with
  | some dl => dl.1.asString ++ dl.2.asString
  | none => "null"

/-- `_parse_panel_gauge_from_p_token` (`fix_sheet.py` lines 298-308):
regex `[pP]([A-Za-z])(\d{1,2})$`, yielding uppercased panel letter and
gauge number. -/
def parsePanelGaugeFromPToken (p : String) : Option Char × Option Nat :=
  if p.length < 2 then (none, none)
  else
    match p.toList with
    | c0 :: c1 :: rest =>
      if (c0 == 'p' || c0 == 'P') && c1.isAlpha &&
          (rest.length == 1 || rest.length == 2) && rest.all (fun c => c.isDigit) then
        (some c1.toUpper, some (digitsToNat rest))
      else (none, none)
    | _ => (none, none)

/-- Maximal runs of word characters (`\w`) of a string; `\b\d{1,2}\b` matches
exactly when some such run is a pure 1-2 digit run. -/
def isWordChar (c : Char) : Bool := c.isAlphanum || c == '_'

/-- `_extract_gauge_from_wire_id` (`fix_sheet.py` lines 310-319): first
standalone 1-2 digit number (`\b(\d{1,2})\b`) in the text. -/
def extractGaugeFromWireId (text : String) : Option Nat :=
  if text = "" then none
  else ((tokenRuns isWordChar text.toList []).find? (fun run =>
    (run.length == 1 || run.length == 2) && run.all (fun c => c.isDigit))).map digitsToNat

/-- `token.split(":", 1)[0]`. -/
def takeBeforeColon (s : String) : String :=
  (s.toList.takeWhile (fun c => c != ':')).asString

/-- `_first_last_endpoint_tokens` (`fix_sheet.py` lines 321-330): first and
last whitespace-delimited tokens of the Article ID, cut at `:`. -/
def firstLastEndpointTokens (aid : String) : Option String × Option String :=
  if aid = "" then (none, none)
  else
    let parts := (tokenRuns (fun c => !c.isWhitespace) (pyStrip aid).toList []).map
      List.asString
    match parts with
    | [] => (none, none)
    | x :: _ => (some (takeBeforeColon x), some (takeBeforeColon (parts.getLastD "")))

/-- Uppercase-letter-or-digit test (`[A-Z0-9]`). -/
def isUpperAlnumChar (c : Char) : Bool := c.isUpper || c.isDigit

/-- Full match of `ARTICLE_TOKEN_RE` (`fix_sheet.py` lines 293-296) against
an already-uppercased token:
`PSS[1-4] | (VMSS|AMSS|WM|FM|86)[AB]? | [A-Z0-9]*CBCS[AB]?`. -/
def articleTokenFullmatch (u : String) : Bool :=
  (u == "PSS1" || u == "PSS2" || u == "PSS3" || u == "PSS4") ||
  ((["VMSS", "AMSS", "WM", "FM", "86"]).any (fun b =>
    u == b || u == b ++ "A" || u == b ++ "B")) ||
  ((["", "A", "B"]).any (fun suf =>
    strEndsWith u ("CBCS" ++ suf) &&
      ((u.toList.take (u.length - (4 + suf.length))).all isUpperAlnumChar)))

/-- `_token_matches_endpoint` (`fix_sheet.py` lines 332-333). -/
def tokenMatchesEndpoint (tok : Option String) : Bool :=
  match tok with
  | none => false
  | some t => t != "" && articleTokenFullmatch (pyUpper t)

/-- `_job_re.match` group 1 (`fix_sheet.py` lines 144, 220-223):
`^\s*([A-Za-z0-9]+)`. -/
def jobFromAG (cur : String) : Option String :=
  let cs := cur.toList.dropWhile (fun c => c.isWhitespace)
  let j := cs.takeWhile (fun c => c.isAlphanum)
  if j.isEmpty then none else some j.asString

/-- Match `([0-9]{4,}[A-Za-z]?)` anchored at the start of the char list. -/
def jobBaseMatchAt (cs : List Char) : Option (List Char) :=
  let ds := cs.takeWhile (fun c => c.isDigit)
  if 4 ≤ ds.length then
    match cs.drop ds.length with
    | a :: _ => if a.isAlpha then some (ds ++ [a]) else some ds
    | [] => some ds
  else none

/-- `re.search(r"([0-9]{4,}[A-Za-z]?)", base)` (`fix_sheet.py` line 225). -/
def jobFromBase (base : String) : Option String :=
  (searchFirst jobBaseMatchAt base.toList).map List.asString

/-- The `ss:Type` strings used by the fixers. -/
def sType : String := "String"

/-- Numeric `ss:Type`. -/
def nType : String := "Number"

-- ===== fixers =====

/-- One (row, column) clearing step of `clear_printer_texts`
(`fix_sheet.py` lines 169-174): clear the existing cell if its raw text is
non-empty; absent cells are skipped. -/
def clearCellAtCol (r : SRow) (col : Nat) : SRow × Nat :=
  match findColIdx r col with
  | none => (r, 0)
  | some i =>
    if getCellText (nthCell r i) != "" then
      (modifyIdx r i (fun c => setCellData c ("") sType), 1)
    else (r, 0)

/-- Process one printer-text column name over all data rows. -/
def clearPrinterTextsName (hdrRow : SRow) (name : String)
    (acc : List SRow × Nat) : List SRow × Nat :=
  match fsHeaderCol hdrRow name with
  | none => acc
  | some col =>
    let stepped := acc.1.map (fun r => clearCellAtCol r col)
    (stepped.map Prod.fst, acc.2 + (stepped.map Prod.snd).sum)

/-- `clear_printer_texts` (`fix_sheet.py` lines 159-175).  A missing header
name is only skipped (with a console warning, not modelled) — the other
name is still processed. -/
def clearPrinterTexts (table : List SRow) (anchor : String) :
    Except String (List SRow × Nat) :=
  match findHeaderRowIndex pyStrip table anchor 80 with
  | Except.error e => Except.error e
  | Except.ok h =>
    let hdrRow := table.getD h []
    let res := ((["Printer1 Wire1 BeginText", "Printer1 Wire1 EndText"]).foldl
      (fun acc name => clearPrinterTextsName hdrRow name acc)
      (table.drop (h + 1), 0))
    Except.ok (table.take (h + 1) ++ res.1, res.2)

/-- The label computed by `set_article_group` for one row
(`fix_sheet.py` lines 216-232), from the row's current Article Group text
and Wire ID text. -/
def articleGroupFinal (sect panel base curAG wire : String) : String :=
  let job := match jobFromAG curAG with
    | some j => some j
    | none => jobFromBase base
  let gc := parseGc wire
  let suffix := if sect != "null" && panel != "null" && gc != "null"
    then sect ++ panel ++ gc else "null"
  (job.getD ("null")) ++ " " ++ suffix

/-- One row of `set_article_group` (`fix_sheet.py` lines 216-236). -/
def setArticleGroupRow (colAG colWire : Nat) (sect panel base : String)
    (r : SRow) : SRow × Nat :=
  let curAG := textAtCol r colAG
  let wire := textAtCol r colWire
  let final := articleGroupFinal sect panel base curAG wire
  let p := getOrCreateCellAtPosition r colAG
  if getCellText (nthCell p.1 p.2) != final then
    (modifyIdx p.1 p.2 (fun c => setCellData c final sType), 1)
  else (p.1, 0)

/-- `set_article_group` (`fix_sheet.py` lines 197-237). -/
def setArticleGroup (table : List SRow) (sourcePath anchor : String) :
    Except String (List SRow × Nat) :=
  match findHeaderRowIndex pyStrip table anchor 80 with
  | Except.error e => Except.error e
  | Except.ok h =>
    let hdrRow := table.getD h []
    match fsHeaderCol hdrRow ("Article Group"), fsHeaderCol hdrRow ("Wire ID") with
    | some colAG, some colWire =>
      let sp := parseSectionPanelFromFilename sourcePath
      let base := splitextStem (pathBasename sourcePath)
      let res := (table.drop (h + 1)).map
        (setArticleGroupRow colAG colWire sp.1 sp.2 base)
      Except.ok (table.take (h + 1) ++ res.map Prod.fst, (res.map Prod.snd).sum)
    | _, _ => Except.ok (table, 0)

/-- One row of `fix_wire_length_for_null_files`
(`fix_sheet.py` lines 268-274). -/
def fixWireLengthRow (colLen : Nat) (r : SRow) : SRow × Nat :=
  match findColIdx r colLen with
  | none => (r, 0)
  | some i =>
    if pyStrip (getCellText (nthCell r i)) == "300" then
      (modifyIdx r i (fun c => setCellData c ("200") nType), 1)
    else (r, 0)

/-- `fix_wire_length_for_null_files` (`fix_sheet.py` lines 258-275): no-op
unless the basename contains the substring `null`. -/
def fixWireLengthForNullFiles (table : List SRow) (sourcePath anchor : String) :
    Except String (List SRow × Nat) :=
  if !containsSubstr ("null") (pathBasename sourcePath) then Except.ok (table, 0)
  else
    match findHeaderRowIndex pyStrip table anchor 80 with
    | Except.error e => Except.error e
    | Except.ok h =>
      let hdrRow := table.getD h []
      match fsHeaderCol hdrRow ("Wire Length") with
      | none => Except.ok (table, 0)
      | some colLen =>
        let res := (table.drop (h + 1)).map (fixWireLengthRow colLen)
        Except.ok (table.take (h + 1) ++ res.map Prod.fst, (res.map Prod.snd).sum)

-- ===== crimp engines =====

/-- The final write step shared by both crimp strategies: fetch the target
cell via `get_or_create_cell_at_position`; if its stripped text is empty,
write the crimp id and unconditionally blank the two columns `k1`, `k2`
(string-typed empties); count 1 change.  Writing through `setTextAtCol`
on the fetched row coincides with mutating the fetched cell because
`get_or_create_cell_at_position` is idempotent. -/
def writeCrimpAt (r : SRow) (target k1 k2 : Nat) (cid : String) : SRow × Nat :=
  let p := getOrCreateCellAtPosition r target
  if pyStrip (getCellText (nthCell p.1 p.2)) == "" then
    (setTextAtCol (setTextAtCol (setTextAtCol p.1 target cid sType) k1 ("") sType)
      k2 ("") sType, 1)
  else (p.1, 0)

/-- The early-exit test `if gauge_from_name and gauge_from_name != 14`
(`fix_sheet.py` line 494).  NOTE: Python truthiness makes a parsed gauge of
`0` falsy, so a filename gauge 0 does NOT trigger the skip; the embedding
reproduces this with the `g != 0` conjunct. -/
def gaugeNameSkip (g : Option Nat) : Bool :=
  match g with
  | some v => v != 0 && v != 14
  | none => false

/-- Side marker chosen from the matching endpoint tokens
(`fix_sheet.py` lines 540-547). -/
def autoCrimpSide (leftOk rightOk : Bool) (preferWhenBoth : String) : Nat :=
  let preferCol := if pyLower preferWhenBoth == "left" then 15 else 19
  if leftOk && rightOk then preferCol
  else if leftOk then 15 else 19

/-- Flip to the empty side when the chosen one is occupied
(`fix_sheet.py` lines 549-553). -/
def autoCrimpFlip (t0 : Nat) (v15 v19 : String) : Nat :=
  if t0 == 15 && pyStrip v15 != "" && pyStrip v19 == "" then 19
  else if t0 == 19 && pyStrip v19 != "" && pyStrip v15 == "" then 15
  else t0

/-- Write-protection guards, side choice and final write of one
`apply_auto_crimp_endpoints` row (`fix_sheet.py` lines 530-565). -/
def autoCrimpWritePhase (r : SRow) (crimpId preferWhenBoth : String)
    (leftOk rightOk : Bool) : SRow × Nat :=
  let v15 := textAtCol r 15
  let v19 := textAtCol r 19
  if pyStrip v15 != "" && pyStrip v19 != "" then (r, 0)
  else if pyStrip v15 != "" && pyStrip v15 != crimpId then (r, 0)
  else if pyStrip v19 != "" && pyStrip v19 != crimpId then (r, 0)
  else
    let target := autoCrimpFlip (autoCrimpSide leftOk rightOk preferWhenBoth) v15 v19
    if target == 15 then writeCrimpAt r 15 14 13 crimpId
    else writeCrimpAt r 19 18 17 crimpId

/-- The per-row body of `apply_auto_crimp_endpoints`
(`fix_sheet.py` lines 498-565). -/
def autoCrimpRow (colWire colAid : Nat) (gaugeFromName : Option Nat)
    (panelLetter : Option Char) (crimpId preferWhenBoth : String)
    (r : SRow) : SRow × Nat :=
  let gaugeOk :=
    if gaugeFromName == some 14 then true
    else extractGaugeFromWireId (textAtCol r colWire) == some 14
  if !gaugeOk then (r, 0)
  else if (match panelLetter with | some c => c != 'C' | none => false) then (r, 0)
  else
    let aid := pyStrip (textAtCol r colAid)
    if aid == "" then (r, 0)
    else
      let toks := firstLastEndpointTokens aid
      let leftOk := tokenMatchesEndpoint toks.1
      let rightOk := tokenMatchesEndpoint toks.2
      if !leftOk && !rightOk then (r, 0)
      else autoCrimpWritePhase r crimpId preferWhenBoth leftOk rightOk

/-- `apply_auto_crimp_endpoints` (`fix_sheet.py` lines 462-567): the
hardcoded fallback crimp strategy. -/
def applyAutoCrimpEndpoints (table : List SRow)
    (sourcePath anchor crimpId preferWhenBoth : String) :
    Except String (List SRow × Nat) :=
  match findHeaderRowIndex pyStrip table anchor 80 with
  | Except.error e => Except.error e
  | Except.ok h =>
    let hdrRow := table.getD h []
    let colWire := (fsHeaderCol hdrRow ("Wire ID")).getD 11
    let colAid := (fsHeaderCol hdrRow ("Article ID")).getD 6
    let sp := parseSectionPanelFromFilename sourcePath
    let pg := parsePanelGaugeFromPToken sp.2
    if (match pg.1 with | some c => c != 'C' | none => false) then
      Except.ok (table, 0)
    else if gaugeNameSkip pg.2 then Except.ok (table, 0)
    else
      let res := (table.drop (h + 1)).map
        (autoCrimpRow colWire colAid pg.2 pg.1 crimpId preferWhenBoth)
      Except.ok (table.take (h + 1) ++ res.map Prod.fst, (res.map Prod.snd).sum)

/-- A declarative crimp rule (`crimp_rules.json` entry as loaded by
`load_rules_file`).  Compiled regexes are modelled as their `search`
predicates; an absent/empty JSON list is the empty list (falsy in Python),
absent scalars are `none`. -/
structure CrimpRule where
  panels : List String := []
  gauges : List Nat := []
  tokensLeft : List (String → Bool) := []
  tokensRight : List (String → Bool) := []
  tokensAny : List (String → Bool) := []
  preferWhenBoth : Option String := none
  colLeft : Option Nat := none
  colRight : Option Nat := none
  crimpId : String := ""

/-- A loaded rules file: default tie-break plus ordered rules. -/
structure RuleSet where
  preferDefault : String := "left"
  rules : List CrimpRule := []

/-- `_rule_matches_panel_gauge` (`fix_sheet.py` lines 349-366). -/
def ruleMatchesPanelGauge (rule : CrimpRule) (panelLetter : Option Char)
    (fnameGauge : Option Nat) (wireText : String) : Bool :=
  let panelFail :=
    !rule.panels.isEmpty &&
    (match panelLetter with
     | some pl => !((rule.panels.map pyUpper).contains
         (pyUpper (String.mk [pl])))
     | none => false)
  if panelFail then false
  else
    let gaugeHit :=
      (match fnameGauge with
       | some g => rule.gauges.contains g
       | none => false) ||
      (match extractGaugeFromWireId wireText with
       | some g => rule.gauges.contains g
       | none => false)
    if !rule.gauges.isEmpty && !gaugeHit then false else true

/-- `any(r.search(tok) for r in regexes)` with a possibly missing token. -/
def anyMatchTok (tok : Option String) (pats : List (String → Bool)) : Bool :=
  match tok with
  | none => false
  | some t => t != "" && pats.any (fun p => p t)

/-- `_decide_side_by_rule` (`fix_sheet.py` lines 368-388): side marker 15
(left) or 19 (right), or none. -/
def decideSideByRule (rule : CrimpRule) (ltok rtok : Option String)
    (prefer : String) : Option Nat :=
  let left := anyMatchTok ltok rule.tokensLeft
  let right := anyMatchTok rtok rule.tokensRight
  let lr :=
    if !left && !right && !rule.tokensAny.isEmpty then
      (anyMatchTok ltok rule.tokensAny, anyMatchTok rtok rule.tokensAny)
    else (left, right)
  if lr.1 && lr.2 then some (if prefer == "left" then 15 else 19)
  else if lr.1 then some 15
  else if lr.2 then some 19
  else none

/-- Write-protection guards, flip and final write of one matching rule of
`apply_crimp_rules` (`fix_sheet.py` lines 430-456), over the already-probed
row `r2` and current values `vL`, `vR`. -/
def ruleGuardedWrite (r2 : SRow) (vL vR : String) (leftCol rightCol tc0 : Nat)
    (cid : String) : SRow × Nat :=
  if pyStrip vL != "" && pyStrip vR != "" then (r2, 0)
  else if pyStrip vL != "" && tc0 == leftCol && pyStrip vL != cid then (r2, 0)
  else if pyStrip vR != "" && tc0 == rightCol && pyStrip vR != cid then (r2, 0)
  else
    let tc := if tc0 == leftCol && pyStrip vL != "" && pyStrip vR == "" then rightCol
              else if tc0 == rightCol && pyStrip vR != "" && pyStrip vL == "" then leftCol
              else tc0
    writeCrimpAt r2 tc (tc - 1) (tc - 2) cid

/-- One matching rule of `apply_crimp_rules` (`fix_sheet.py` lines 424-456).
The two `get_or_create_cell_at_position` probes for the current values are
the source's lines 431-432, and may materialise empty cells. -/
def ruleWritePhase (r : SRow) (rule : CrimpRule) (side : Nat) : SRow × Nat :=
  let leftCol := rule.colLeft.getD 15
  let rightCol := rule.colRight.getD 19
  let tc0 := if side == 15 then leftCol else rightCol
  let pL := getOrCreateCellAtPosition r leftCol
  let vL := getCellText (nthCell pL.1 pL.2)
  let pR := getOrCreateCellAtPosition pL.1 rightCol
  let vR := getCellText (nthCell pR.1 pR.2)
  ruleGuardedWrite pR.1 vL vR leftCol rightCol tc0 rule.crimpId

/-- The `for rule in rules` loop body of `apply_crimp_rules`
(`fix_sheet.py` lines 415-457) for one row: every rule that reaches the
write-protection block ends in `break`, so the recursion only continues
while the row is untouched. -/
def tryCrimpRules (panelLetter : Option Char) (fnameGauge : Option Nat)
    (preferDefault : String) (wireText : String) (ltok rtok : Option String) :
    List CrimpRule → SRow → SRow × Nat
  | [], r => (r, 0)
  | rule :: rest, r =>
    if !ruleMatchesPanelGauge rule panelLetter fnameGauge wireText then
      tryCrimpRules panelLetter fnameGauge preferDefault wireText ltok rtok rest r
    else
      let prefer := pyLower (rule.preferWhenBoth.getD preferDefault)
      match decideSideByRule rule ltok rtok prefer with
      | none =>
        tryCrimpRules panelLetter fnameGauge preferDefault wireText ltok rtok rest r
      | some side => ruleWritePhase r rule side

/-- The per-row body of `apply_crimp_rules` (`fix_sheet.py` lines 405-457). -/
def applyCrimpRulesRow (rs : RuleSet) (panelLetter : Option Char)
    (fnameGauge : Option Nat) (colWire colAid : Nat) (r : SRow) : SRow × Nat :=
  let wireText := textAtCol r colWire
  let aid := pyStrip (textAtCol r colAid)
  if aid == "" then (r, 0)
  else
    let toks := firstLastEndpointTokens aid
    tryCrimpRules panelLetter fnameGauge rs.preferDefault wireText
      toks.1 toks.2 rs.rules r

/-- `apply_crimp_rules` (`fix_sheet.py` lines 391-459): the JSON-rules crimp
strategy.  NOTE: missing `Wire ID` / `Article ID` headers fall back to the
hardcoded columns 11 and 6 (`hdr.get(name, default)`), they are not
skipped. -/
def applyCrimpRules (table : List SRow) (sourcePath : String) (rs : RuleSet)
    (anchor : String) : Except String (List SRow × Nat) :=
  match findHeaderRowIndex pyStrip table anchor 80 with
  | Except.error e => Except.error e
  | Except.ok h =>
    let hdrRow := table.getD h []
    let colWire := (fsHeaderCol hdrRow ("Wire ID")).getD 11
    let colAid := (fsHeaderCol hdrRow ("Article ID")).getD 6
    let sp := parseSectionPanelFromFilename sourcePath
    let pg := parsePanelGaugeFromPToken sp.2
    let res := (table.drop (h + 1)).map
      (applyCrimpRulesRow rs pg.1 pg.2 colWire colAid)
    Except.ok (table.take (h + 1) ++ res.map Prod.fst, (res.map Prod.snd).sum)

-- ===== splitter =====

/-- Keys in order of first occurrence (insertion order of a Python dict). -/
def dedupFirst {κ : Type} [DecidableEq κ] : List κ → List κ
  | [] => []
  | k :: ks => k :: (dedupFirst ks).filter (fun x => decide (x ≠ k))

/-- Grouping of `split_by_gauge_color` (`fix_sheet.py` lines 605-623):
`groups.setdefault(key, []).append(r)` over the rows in order gives, for
each key in first-occurrence order, the ordered sublist of rows having
that key. -/
def gatherGroups {α κ : Type} [DecidableEq κ] (key : α → κ) (xs : List α) :
    List (κ × List α) :=
  (dedupFirst (xs.map key)).map (fun k => (k, xs.filter (fun y => decide (key y = k))))

/-- `chunks = max(1, math.ceil(total / max_per))` (`fix_sheet.py` line 634). -/
def chunkCount (total maxPer : Nat) : Nat :=
  max 1 ((total + maxPer - 1) / maxPer)

/-- The slices `rs[i*max_per:(i+1)*max_per]` (`fix_sheet.py` lines 636-637). -/
def chunkList {α : Type} (maxPer : Nat) (rs : List α) : List (List α) :=
  (List.range (chunkCount rs.length maxPer)).map
    (fun i => (rs.drop (i * maxPer)).take maxPer)

/-- Bucket-then-chunk emission order of the splitter: each emitted output is
its group key paired with its data rows (file naming and serialization are
outside the model). -/
def splitChunks {α κ : Type} [DecidableEq κ] (key : α → κ) (maxPer : Nat)
    (xs : List α) : List (κ × List α) :=
  ((gatherGroups key xs).map
    (fun kg => (chunkList maxPer kg.2).map (fun c => (kg.1, c)))).flatten

/-- The bucket key of one data row (`fix_sheet.py` lines 607-623):
gauge+color from the Wire ID column, PLCIO flag from the Article ID column
when that header exists. -/
def groupKeyOfRow (colWire : Nat) (colAid : Option Nat) (r : SRow) :
    String × Bool :=
  (parseGc (textAtCol r colWire),
   match colAid with
   | some ca => plcioFlag (textAtCol r ca)
   | none => false)

/-- `split_by_gauge_color` (`fix_sheet.py` lines 579-657), reduced to the
emitted (key, chunk-rows) list: header lookup, missing `Wire ID` returns no
outputs, grouping by (gauge+color, PLCIO), chunking at `max_per`. -/
def splitByGaugeColor (table : List SRow) (_sourcePath anchor : String)
    (maxPer : Nat) : Except String (List ((String × Bool) × List SRow)) :=
  match findHeaderRowIndex pyStrip table anchor 80 with
  | Except.error e => Except.error e
  | Except.ok h =>
    let hdrRow := table.getD h []
    match fsHeaderCol hdrRow ("Wire ID") with
    | none => Except.ok []
    | some colWire =>
      let colAid := fsHeaderCol hdrRow ("Article ID")
      Except.ok (splitChunks (groupKeyOfRow colWire colAid) maxPer
        (table.drop (h + 1)))

-- ===== concrete tables and rule sets used in witnesses =====

/-- A header cell at an explicit position. -/
def hdrCell (pos : Nat) (t : String) : SCell := ⟨some pos, some (t, sType)⟩

/-- A one-cell row used by the `getOrCreateCellAtPosition` witness. -/
def rowC9demo : SRow := [⟨some 2, some ("x", sType)⟩]

/-- Rows for the header-scan witness: anchor in the second row. -/
def tblAnchorDemo : List SRow :=
  [[⟨some 1, some ("x", sType)⟩], [hdrCell 1 ("Order ID")], []]

/-- Table with Article Group and Wire ID headers and one data row whose
Wire ID is `18-WHT` and whose Article Group cell is absent. -/
def tblAG : List SRow :=
  [[hdrCell 1 ("Order ID"), hdrCell 2 ("Article Group"), hdrCell 3 ("Wire ID")],
   [⟨some 3, some ("18-WHT", sType)⟩]]

/-- Table whose single data row has Article ID `PSS1` (col 6) and Wire ID
`14-WHT` (col 11); columns 15 and 19 empty. -/
def tblPss : List SRow :=
  [[hdrCell 1 ("Order ID")],
   [⟨some 6, some ("PSS1", sType)⟩, ⟨some 11, some ("14-WHT", sType)⟩]]

/-- Like `tblPss` but with Article ID `PSS1 FOO` (left token matches, right
token does not). -/
def tblPssFoo : List SRow :=
  [[hdrCell 1 ("Order ID")],
   [⟨some 6, some ("PSS1 FOO", sType)⟩, ⟨some 11, some ("14-WHT", sType)⟩]]

/-- Like `tblPss` but column 15 already holds the text OTHER. -/
def tblOther15 : List SRow :=
  [[hdrCell 1 ("Order ID")],
   [⟨some 6, some ("PSS1", sType)⟩, ⟨some 11, some ("14-WHT", sType)⟩,
    ⟨some 15, some ("OTHER", sType)⟩]]

/-- Table whose header has only the EndText printer column (BeginText
missing), with one clearable data cell. -/
def tblEndOnly : List SRow :=
  [[hdrCell 1 ("Order ID"), hdrCell 2 ("Printer1 Wire1 EndText")],
   [⟨some 2, some ("junk", sType)⟩]]

/-- Table with a Wire Length header and one data row holding `300`. -/
def tblLen : List SRow :=
  [[hdrCell 1 ("Order ID"), hdrCell 2 ("Wire Length")],
   [⟨some 2, some ("300", sType)⟩]]

/-- Bare table lacking every fixer-specific header. -/
def tblBare : List SRow :=
  [[hdrCell 1 ("Order ID")], [⟨some 2, some ("junk", sType)⟩]]

/-- A crimp rule with overlapping column override: left column 18 is a
blanked neighbor of right column 19. -/
def ruleOverlap : CrimpRule :=
  { tokensRight := [fun t => t == "R"], colLeft := some 18, colRight := some 19,
    crimpId := "CR" }

/-- Rule set containing only `ruleOverlap`. -/
def rsOverlap : RuleSet := { rules := [ruleOverlap] }

/-- Table for the overlap counterexample: Article ID `L R` (col 6), text
OLD in column 18, column 19 empty. -/
def tblOverlap : List SRow :=
  [[hdrCell 1 ("Order ID")],
   [⟨some 6, some ("L R", sType)⟩, ⟨some 18, some ("OLD", sType)⟩]]

/-- A default-columns crimp rule matching left token `PSS1`. -/
def rulePlain : CrimpRule :=
  { tokensLeft := [fun t => t == "PSS1"], crimpId := "CR2" }

/-- Rule set containing only `rulePlain`. -/
def rsPlain : RuleSet := { rules := [rulePlain] }

/-- Splitter demo: three data rows in two gauge+color buckets, one PLCIO. -/
def tblSplit : List SRow :=
  [[hdrCell 1 ("Order ID"), hdrCell 2 ("Wire ID"), hdrCell 3 ("Article ID")],
   [⟨some 2, some ("18-WHT", sType)⟩],
   [⟨some 2, some ("14-GRY", sType)⟩],
   [⟨some 2, some ("18-WHT", sType)⟩, ⟨some 3, some ("xPLCIOy", sType)⟩]]

/-- `tblPss` after one auto-crimp run: crimp id in column 15, columns 14
and 13 blanked. -/
def tblPssRun1 : List SRow :=
  [[hdrCell 1 ("Order ID")],
   [⟨some 6, some ("PSS1", sType)⟩, ⟨some 11, some ("14-WHT", sType)⟩,
    ⟨some 15, some ("018769-025", sType)⟩, ⟨some 14, some ("", sType)⟩,
    ⟨some 13, some ("", sType)⟩]]

/-- `tblPssRun1` after a second auto-crimp run: the engine flips to the
empty right side and also fills column 19 (blanking 18 and 17). -/
def tblPssRun2 : List SRow :=
  [[hdrCell 1 ("Order ID")],
   [⟨some 6, some ("PSS1", sType)⟩, ⟨some 11, some ("14-WHT", sType)⟩,
    ⟨some 15, some ("018769-025", sType)⟩, ⟨some 14, some ("", sType)⟩,
    ⟨some 13, some ("", sType)⟩, ⟨some 19, some ("018769-025", sType)⟩,
    ⟨some 18, some ("", sType)⟩, ⟨some 17, some ("", sType)⟩]]

/-- The splitter output on `tblSplit` with `maxPer = 1`: three singleton
chunks, one per bucket, in first-occurrence order. -/
def outSplit : List ((String × Bool) × List SRow) :=
  [(("18WHT", false), [[⟨some 2, some ("18-WHT", sType)⟩]]),
   (("14GRY", false), [[⟨some 2, some ("14-GRY", sType)⟩]]),
   (("18WHT", true),
    [[⟨some 2, some ("18-WHT", sType)⟩, ⟨some 3, some ("xPLCIOy", sType)⟩]])]

-- ===== basic lemmas about the cell model =====

theorem positionsFrom_length (pos : Nat) (cs : List SCell) :
    (positionsFrom pos cs).length = cs.length := by
  induction cs generalizing pos with
  | nil => rfl
  | cons c cs ih => simp [positionsFrom, ih]

theorem positionsFrom_append_explicit (pos : Nat) (cs : List SCell)
    (col : Nat) (d : Option (String × String)) :
    positionsFrom pos (cs ++ [⟨some col, d⟩]) = positionsFrom pos cs ++ [col] := by
  induction cs generalizing pos with
  | nil => simp [positionsFrom]
  | cons c cs ih => simp [positionsFrom, ih]

theorem positionsFrom_modifyIdx_set (pos : Nat) (cs : List SCell) (i : Nat)
    (t ty : String) :
    positionsFrom pos (modifyIdx cs i (fun c => setCellData c t ty)) =
      positionsFrom pos cs := by
  induction cs generalizing pos i with
  | nil => rfl
  | cons c cs ih =>
    cases i with
    | zero => simp [modifyIdx, positionsFrom, setCellData]
    | succ j => simp [modifyIdx, positionsFrom, ih]

theorem lastIdxOf_some_get (k : Nat) (ps : List Nat) (i : Nat)
    (h : lastIdxOf k ps = some i) : ps.getD i 0 = k ∧ i < ps.length := by
  induction ps generalizing i with
  | nil => simp [lastIdxOf] at h
  | cons p ps ih =>
    simp only [lastIdxOf] at h
    cases hrec : lastIdxOf k ps with
    | some j =>
      rw [hrec] at h
      cases h
      have := ih j hrec
      simpa using this
    | none =>
      rw [hrec] at h
      by_cases hp : p = k
      · simp [hp] at h
        cases h
        simp [hp]
      · simp [hp] at h

theorem lastIdxOf_none_iff (k : Nat) (ps : List Nat) :
    lastIdxOf k ps = none ↔ k ∉ ps := by
  induction ps with
  | nil => simp [lastIdxOf]
  | cons p ps ih =>
    simp only [lastIdxOf, List.mem_cons]
    cases hrec : lastIdxOf k ps with
    | some j =>
      have hkps : k ∈ ps := by
        by_contra hn
        rw [ih.mpr hn] at hrec
        exact absurd hrec (by simp)
      simp [hkps]
    | none =>
      have hkps : k ∉ ps := ih.mp hrec
      by_cases hp : p = k
      · simp [hp]
      · simp [hp, hkps, Ne.symm hp]

theorem lastIdxOf_append_self (k : Nat) (ps : List Nat) :
    lastIdxOf k (ps ++ [k]) = some ps.length := by
  induction ps with
  | nil => simp [lastIdxOf]
  | cons p ps ih => simp [lastIdxOf, ih]

theorem lastIdxOf_append_other (k k' : Nat) (ps : List Nat) (h : k' ≠ k) :
    lastIdxOf k' (ps ++ [k]) = lastIdxOf k' ps := by
  induction ps with
  | nil => simp [lastIdxOf, Ne.symm h]
  | cons p ps ih => simp [lastIdxOf, ih]

-- ===== list-index helper lemmas =====

theorem nthCell_append_self (r : SRow) (x : SCell) :
    nthCell (r ++ [x]) r.length = x := by
  induction r with
  | nil => rfl
  | cons c cs ih => simp [nthCell, List.getD]

theorem nthCell_append_lt (r : SRow) (x : SCell) (i : Nat) (h : i < r.length) :
    nthCell (r ++ [x]) i = nthCell r i := by
  induction r generalizing i with
  | nil => simp at h
  | cons c cs ih =>
    cases i with
    | zero => rfl
    | succ j =>
      have : j < cs.length := by simpa using h
      simpa [nthCell, List.getD] using ih j this

theorem modifyIdx_length (r : SRow) (i : Nat) (f : SCell → SCell) :
    (modifyIdx r i f).length = r.length := by
  induction r generalizing i with
  | nil => rfl
  | cons c cs ih =>
    cases i with
    | zero => rfl
    | succ j => simp [modifyIdx, ih]

theorem nthCell_modifyIdx_self (r : SRow) (i : Nat) (f : SCell → SCell)
    (h : i < r.length) :
    nthCell (modifyIdx r i f) i = f (nthCell r i) := by
  induction r generalizing i with
  | nil => simp at h
  | cons c cs ih =>
    cases i with
    | zero => rfl
    | succ j =>
      have : j < cs.length := by simpa using h
      simpa [nthCell, List.getD, modifyIdx] using ih j this

theorem nthCell_modifyIdx_other (r : SRow) (i j : Nat) (f : SCell → SCell)
    (h : j ≠ i) :
    nthCell (modifyIdx r i f) j = nthCell r j := by
  induction r generalizing i j with
  | nil => rfl
  | cons c cs ih =>
    cases i with
    | zero =>
      cases j with
      | zero => exact absurd rfl h
      | succ j => rfl
    | succ i =>
      cases j with
      | zero => rfl
      | succ j =>
        have : j ≠ i := by omega
        simpa [nthCell, List.getD, modifyIdx] using ih i j this

-- ===== findColIdx lemmas =====

theorem findColIdx_lt (r : SRow) (col i : Nat) (h : findColIdx r col = some i) :
    i < r.length := by
  have := lastIdxOf_some_get col (colPositions r) i h
  have hl := positionsFrom_length 1 r
  simp only [colPositions] at this
  omega

theorem findColIdx_pos (r : SRow) (col i : Nat) (h : findColIdx r col = some i) :
    (colPositions r).getD i 0 = col :=
  (lastIdxOf_some_get col (colPositions r) i h).1

theorem findColIdx_inj (r : SRow) (c c' i j : Nat)
    (h1 : findColIdx r c = some i) (h2 : findColIdx r c' = some j)
    (hcc : c ≠ c') : i ≠ j := by
  intro hij
  apply hcc
  rw [← findColIdx_pos r c i h1, ← findColIdx_pos r c' j h2, hij]

theorem findColIdx_append_self (r : SRow) (col : Nat)
    (d : Option (String × String)) :
    findColIdx (r ++ [⟨some col, d⟩]) col = some r.length := by
  simp only [findColIdx, colPositions, positionsFrom_append_explicit]
  rw [lastIdxOf_append_self]
  simp [positionsFrom_length]

theorem findColIdx_append_other (r : SRow) (col c' : Nat)
    (d : Option (String × String)) (h : c' ≠ col) :
    findColIdx (r ++ [⟨some col, d⟩]) c' = findColIdx r c' := by
  simp only [findColIdx, colPositions, positionsFrom_append_explicit]
  exact lastIdxOf_append_other col c' _ h

theorem findColIdx_modify_set (r : SRow) (i : Nat) (t ty : String) (c : Nat) :
    findColIdx (modifyIdx r i (fun x => setCellData x t ty)) c = findColIdx r c := by
  simp [findColIdx, colPositions, positionsFrom_modifyIdx_set]

theorem findColIdx_none_notMem (r : SRow) (col : Nat)
    (h : findColIdx r col = none) : col ∉ colPositions r :=
  (lastIdxOf_none_iff col (colPositions r)).mp h

-- ===== getOrCreate / setText specification lemmas =====

theorem getOrCreate_found (r : SRow) (col i : Nat)
    (h : findColIdx r col = some i) :
    getOrCreateCellAtPosition r col = (r, i) := by
  simp [getOrCreateCellAtPosition, h]

theorem getOrCreate_new (r : SRow) (col : Nat)
    (h : findColIdx r col = none) :
    getOrCreateCellAtPosition r col = (r ++ [⟨some col, none⟩], r.length) := by
  simp [getOrCreateCellAtPosition, h]

theorem findColIdx_getOrCreate (r : SRow) (col : Nat) :
    findColIdx (getOrCreateCellAtPosition r col).1 col =
      some (getOrCreateCellAtPosition r col).2 := by
  cases h : findColIdx r col with
  | some i => simp [getOrCreateCellAtPosition, h]
  | none => simp [getOrCreateCellAtPosition, h, findColIdx_append_self]

theorem getOrCreate_idem (r : SRow) (col : Nat) :
    getOrCreateCellAtPosition (getOrCreateCellAtPosition r col).1 col =
      getOrCreateCellAtPosition r col := by
  cases h : findColIdx r col with
  | some i =>
    rw [getOrCreate_found r col i h]
    exact getOrCreate_found r col i h
  | none =>
    rw [getOrCreate_new r col h]
    exact getOrCreate_found _ col _ (findColIdx_append_self r col none)

theorem getCellText_getOrCreate (r : SRow) (col : Nat) :
    getCellText (nthCell (getOrCreateCellAtPosition r col).1
      (getOrCreateCellAtPosition r col).2) = textAtCol r col := by
  cases h : findColIdx r col with
  | some i => simp [getOrCreateCellAtPosition, h, textAtCol, cellAtCol]
  | none =>
    simp [getOrCreateCellAtPosition, h, textAtCol, cellAtCol,
      nthCell_append_self, getCellText]

theorem cellAtCol_getOrCreate_other (r : SRow) (col c' : Nat) (h : c' ≠ col) :
    cellAtCol (getOrCreateCellAtPosition r col).1 c' = cellAtCol r c' := by
  cases hf : findColIdx r col with
  | some i => simp [getOrCreateCellAtPosition, hf]
  | none =>
    simp only [getOrCreateCellAtPosition, hf]
    simp only [cellAtCol, findColIdx_append_other r col c' none h]
    cases hg : findColIdx r c' with
    | some j =>
      have := findColIdx_lt r c' j hg
      simp [nthCell_append_lt r _ j this]
    | none => simp

theorem textAtCol_getOrCreate_other (r : SRow) (col c' : Nat) (h : c' ≠ col) :
    textAtCol (getOrCreateCellAtPosition r col).1 c' = textAtCol r c' := by
  simp [textAtCol, cellAtCol_getOrCreate_other r col c' h]

theorem textAtCol_getOrCreate_self (r : SRow) (col : Nat) :
    textAtCol (getOrCreateCellAtPosition r col).1 col = textAtCol r col := by
  have h1 := findColIdx_getOrCreate r col
  have h2 := getCellText_getOrCreate r col
  simp only [textAtCol, cellAtCol, h1, Option.map_some, Option.getD_some] at *
  exact h2

theorem cellAtCol_modify_set_other (r : SRow) (i : Nat) (t ty : String)
    (c c' : Nat) (hi : findColIdx r c = some i) (h : c' ≠ c) :
    cellAtCol (modifyIdx r i (fun x => setCellData x t ty)) c' = cellAtCol r c' := by
  simp only [cellAtCol, findColIdx_modify_set]
  cases hg : findColIdx r c' with
  | some j =>
    have hne : j ≠ i := findColIdx_inj r c' c j i hg hi h
    simp [nthCell_modifyIdx_other r i j _ hne]
  | none => simp

theorem textAtCol_setTextAtCol_same (r : SRow) (col : Nat) (t ty : String) :
    textAtCol (setTextAtCol r col t ty) col = t := by
  unfold setTextAtCol
  have h1 := findColIdx_getOrCreate r col
  have hlt := findColIdx_lt _ col _ h1
  simp only [textAtCol, cellAtCol, findColIdx_modify_set, h1]
  rw [Option.map_map]
  simp only [Option.map_some', Option.getD_some, Function.comp_apply]
  rw [nthCell_modifyIdx_self _ _ _ hlt]
  rfl

theorem dataAtCol_setTextAtCol_same (r : SRow) (col : Nat) (t ty : String) :
    dataAtCol (setTextAtCol r col t ty) col = some (t, ty) := by
  unfold setTextAtCol
  have h1 := findColIdx_getOrCreate r col
  have hlt := findColIdx_lt _ col _ h1
  simp only [dataAtCol, cellAtCol, findColIdx_modify_set, h1]
  simp only [Option.map_some', Option.some_bind]
  rw [nthCell_modifyIdx_self _ _ _ hlt]
  rfl

theorem cellAtCol_setTextAtCol_other (r : SRow) (col c' : Nat) (t ty : String)
    (h : c' ≠ col) :
    cellAtCol (setTextAtCol r col t ty) c' = cellAtCol r c' := by
  unfold setTextAtCol
  have h1 := findColIdx_getOrCreate r col
  rw [cellAtCol_modify_set_other _ _ t ty col c' h1 h]
  exact cellAtCol_getOrCreate_other r col c' h

theorem textAtCol_setTextAtCol_other (r : SRow) (col c' : Nat) (t ty : String)
    (h : c' ≠ col) :
    textAtCol (setTextAtCol r col t ty) c' = textAtCol r c' := by
  simp [textAtCol, cellAtCol_setTextAtCol_other r col c' t ty h]

theorem dataAtCol_setTextAtCol_other (r : SRow) (col c' : Nat) (t ty : String)
    (h : c' ≠ col) :
    dataAtCol (setTextAtCol r col t ty) c' = dataAtCol r c' := by
  simp [dataAtCol, cellAtCol_setTextAtCol_other r col c' t ty h]

theorem textAtCol_nonempty_found (r : SRow) (col : Nat)
    (h : textAtCol r col ≠ ("")) : ∃ i, findColIdx r col = some i := by
  by_contra hn
  push_neg at hn
  have : findColIdx r col = none := by
    cases hf : findColIdx r col with
    | some i => exact absurd hf (hn i)
    | none => rfl
  simp [textAtCol, cellAtCol, this] at h

-- ===== header scan specification =====

theorem rowHasAnchor_nil (norm : String → String) (anchor : String) :
    rowHasAnchor norm anchor [] = false := rfl

theorem findHeaderAux_some_iff (norm : String → String) (anchor : String)
    (l : List SRow) (i : Nat) :
    findHeaderAux norm anchor l = some i ↔
      (rowHasAnchor norm anchor (l.getD i []) = true ∧
       ∀ j, j < i → rowHasAnchor norm anchor (l.getD j []) = false) := by
  induction l generalizing i with
  | nil =>
    constructor
    · intro h
      simp [findHeaderAux] at h
    · intro h
      have := h.1
      simp [List.getD, rowHasAnchor_nil] at this
  | cons r rs ih =>
    by_cases hr : rowHasAnchor norm anchor r
    · cases i with
      | zero =>
        simp [findHeaderAux, hr, List.getD]
      | succ i =>
        simp only [findHeaderAux, hr, if_true]
        constructor
        · intro h
          simp at h
        · intro h
          have := h.2 0 (Nat.succ_pos i)
          simp [List.getD] at this
          rw [this] at hr
          simp at hr
    · cases i with
      | zero =>
        simp only [findHeaderAux, hr, if_false]
        constructor
        · intro h
          cases hx : findHeaderAux norm anchor rs with
          | some k => rw [hx] at h; simp at h
          | none => rw [hx] at h; simp at h
        · intro h
          have := h.1
          simp [List.getD] at this
          rw [this] at hr
          simp at hr
      | succ i =>
        simp only [findHeaderAux, hr, if_false]
        constructor
        · intro h
          cases hx : findHeaderAux norm anchor rs with
          | some k =>
            rw [hx] at h
            simp at h
            subst h
            have := (ih k).mp hx
            refine ⟨by simpa [List.getD] using this.1, ?_⟩
            intro j hj
            cases j with
            | zero => simpa using hr
            | succ j =>
              have : j < k := by omega
              simpa [List.getD] using (ih k).mp hx |>.2 j this
          | none => rw [hx] at h; simp at h
        · intro h
          have h1 : rowHasAnchor norm anchor (rs.getD i []) = true := by
            simpa [List.getD] using h.1
          have h2 : ∀ j, j < i → rowHasAnchor norm anchor (rs.getD j []) = false := by
            intro j hj
            have := h.2 (j + 1) (by omega)
            simpa [List.getD] using this
          rw [(ih i).mpr ⟨h1, h2⟩]
          simp

theorem findHeaderAux_none_iff (norm : String → String) (anchor : String)
    (l : List SRow) :
    findHeaderAux norm anchor l = none ↔
      ∀ j, rowHasAnchor norm anchor (l.getD j []) = false := by
  induction l with
  | nil =>
    simp only [findHeaderAux, true_iff]
    intro j
    simp [List.getD, rowHasAnchor_nil]
  | cons r rs ih =>
    by_cases hr : rowHasAnchor norm anchor r
    · simp only [findHeaderAux, hr, if_true]
      constructor
      · intro h; simp at h
      · intro h
        have := h 0
        simp [List.getD] at this
        rw [this] at hr
        simp at hr
    · have heq : findHeaderAux norm anchor (r :: rs) =
          (findHeaderAux norm anchor rs).map (· + 1) := by
        simp [findHeaderAux, hr]
      rw [heq, Option.map_eq_none', ih]
      constructor
      · intro h j
        cases j with
        | zero => simpa using hr
        | succ j => simpa [List.getD] using h j
      · intro h j
        simpa [List.getD] using h (j + 1)

/-- Claim C5: for every normalizer, row list, anchor and scan limit,
`findHeaderRowIndex` returns `Except.ok i` exactly when row `i` is the
first row among the first `min(scanLimit, length)` rows (the `take
scanLimit` window) containing a cell whose normalized text equals the
anchor, and returns the header-not-found error exactly when no row of the
window does. -/
theorem claimC5 (norm : String → String) (rows : List SRow) (anchor : String)
    (scanLimit : Nat) :
    (∀ i, findHeaderRowIndex norm rows anchor scanLimit = Except.ok i ↔
      (rowHasAnchor norm anchor ((rows.take scanLimit).getD i []) = true ∧
       ∀ j, j < i →
         rowHasAnchor norm anchor ((rows.take scanLimit).getD j []) = false)) ∧
    (findHeaderRowIndex norm rows anchor scanLimit =
        Except.error headerNotFoundMsg ↔
      ∀ j, rowHasAnchor norm anchor ((rows.take scanLimit).getD j []) = false) := by
  constructor
  · intro i
    unfold findHeaderRowIndex
    cases h : findHeaderAux norm anchor (rows.take scanLimit) with
    | some k =>
      constructor
      · intro hok
        have hki : k = i := by
          cases hok
          rfl
        subst hki
        exact (findHeaderAux_some_iff norm anchor _ k).mp h
      · intro hr
        have := (findHeaderAux_some_iff norm anchor (rows.take scanLimit) i).mpr hr
        rw [h] at this
        cases this
        rfl
    | none =>
      constructor
      · intro hok
        simp at hok
      · intro hr
        have := (findHeaderAux_some_iff norm anchor (rows.take scanLimit) i).mpr hr
        rw [h] at this
        cases this
  · unfold findHeaderRowIndex
    cases h : findHeaderAux norm anchor (rows.take scanLimit) with
    | some k =>
      constructor
      · intro hok
        simp at hok
      · intro hr
        have := (findHeaderAux_none_iff norm anchor (rows.take scanLimit)).mpr hr
        rw [h] at this
        cases this
    | none =>
      constructor
      · intro _
        exact (findHeaderAux_none_iff norm anchor (rows.take scanLimit)).mp h
      · intro _
        rfl

/-- Witness for C5 at a concrete table: the anchor sits in row 1. -/
theorem claimC5_witness :
    findHeaderRowIndex pyStrip tblAnchorDemo ("Order ID") 80 = Except.ok 1 := by
  apply ((claimC5 pyStrip tblAnchorDemo ("Order ID") 80).1 1).mpr
  refine ⟨by decide, ?_⟩
  intro j hj
  have hj0 : j = 0 := by omega
  subst hj0
  decide

/-- Claim C9: `getOrCreateCellAtPosition` returns the existing cell of a
present column; otherwise it appends exactly one cell tagged with the
column index (which then occupies exactly that position); it is idempotent
(the second call returns the same row and the same cell); and it never
introduces a duplicate column position. -/
theorem claimC9 (r : SRow) (p : Nat) :
    (∀ i, findColIdx r p = some i → getOrCreateCellAtPosition r p = (r, i)) ∧
    (findColIdx r p = none →
      getOrCreateCellAtPosition r p = (r ++ [⟨some p, none⟩], r.length) ∧
      colPositions ((getOrCreateCellAtPosition r p).1) = colPositions r ++ [p] ∧
      p ∉ colPositions r) ∧
    getOrCreateCellAtPosition ((getOrCreateCellAtPosition r p).1) p =
      getOrCreateCellAtPosition r p ∧
    ((colPositions r).Nodup → (colPositions ((getOrCreateCellAtPosition r p).1)).Nodup) := by
  refine ⟨getOrCreate_found r p, ?_, getOrCreate_idem r p, ?_⟩
  · intro h
    refine ⟨getOrCreate_new r p h, ?_, findColIdx_none_notMem r p h⟩
    rw [getOrCreate_new r p h]
    simp only [colPositions]
    exact positionsFrom_append_explicit 1 r p none
  · intro hnd
    cases h : findColIdx r p with
    | some i =>
      rw [getOrCreate_found r p i h]
      exact hnd
    | none =>
      rw [getOrCreate_new r p h]
      have hmem := findColIdx_none_notMem r p h
      simp only [colPositions] at *
      rw [positionsFrom_append_explicit]
      refine hnd.append (List.nodup_singleton p) ?_
      intro a ha hain
      simp at hain
      subst hain
      exact hmem ha

/-- Witness for C9: an existing column is returned in place, an absent one
is appended once, positions stay duplicate-free. -/
theorem claimC9_witness :
    getOrCreateCellAtPosition rowC9demo 2 = (rowC9demo, 0) ∧
    getOrCreateCellAtPosition rowC9demo 5 = (rowC9demo ++ [⟨some 5, none⟩], 1) ∧
    (colPositions ((getOrCreateCellAtPosition rowC9demo 5).1)).Nodup := by
  refine ⟨(claimC9 rowC9demo 2).1 0 (by decide),
    ((claimC9 rowC9demo 5).2.1 (by decide)).1,
    (claimC9 rowC9demo 5).2.2.2 (by decide)⟩

-- ===== table plumbing lemmas =====

theorem getD_append_right_gen {α : Type} (l₁ l₂ : List α) (i : Nat) (d : α) :
    (l₁ ++ l₂).getD (l₁.length + i) d = l₂.getD i d := by
  induction l₁ with
  | nil => simp
  | cons c cs ih =>
    have : cs.length + 1 + i = (cs.length + i) + 1 := by omega
    simp only [List.cons_append, List.length_cons, this, List.getD]
    simpa [List.getD] using ih

theorem getD_map_lt {α β : Type} (f : α → β) (l : List α) (i : Nat) (d : β)
    (d' : α) (h : i < l.length) :
    (l.map f).getD i d = f (l.getD i d') := by
  induction l generalizing i with
  | nil => simp at h
  | cons c cs ih =>
    cases i with
    | zero => rfl
    | succ j =>
      have : j < cs.length := by simpa using h
      simpa [List.getD] using ih j this

theorem getD_drop_gen {α : Type} (l : List α) (n i : Nat) (d : α) :
    (l.drop n).getD i d = l.getD (n + i) d := by
  induction l generalizing n with
  | nil => simp
  | cons c cs ih =>
    cases n with
    | zero => simp
    | succ m =>
      have : m + 1 + i = (m + i) + 1 := by omega
      simp only [List.drop_succ_cons, this, List.getD]
      exact ih m

theorem fixedTable_getD (table : List SRow) (h : Nat) (g : SRow → SRow)
    (hlt : h < table.length) (i : Nat) :
    ((table.take (h + 1) ++ (table.drop (h + 1)).map g).getD (h + 1 + i) []) =
      (if h + 1 + i < table.length then g (table.getD (h + 1 + i) []) else []) := by
  have hlen : (table.take (h + 1)).length = h + 1 := by
    simp only [List.length_take]
    omega
  have step1 : (table.take (h + 1) ++ (table.drop (h + 1)).map g).getD (h + 1 + i) [] =
      ((table.drop (h + 1)).map g).getD i [] := by
    have hg := getD_append_right_gen (table.take (h + 1))
      ((table.drop (h + 1)).map g) i ([] : SRow)
    rw [hlen] at hg
    exact hg
  rw [step1]
  by_cases hi : h + 1 + i < table.length
  · have hi2 : i < ((table.drop (h + 1)).length) := by
      simp only [List.length_drop]
      omega
    rw [getD_map_lt g _ i [] [] hi2, getD_drop_gen, if_pos hi]
  · have hi2 : (((table.drop (h + 1)).map g).length) ≤ i := by
      simp only [List.length_map, List.length_drop]
      omega
    rw [List.getD_eq_default _ _ hi2, if_neg hi]

theorem findHeaderRowIndex_lt (norm : String → String) (rows : List SRow)
    (anchor : String) (limit h : Nat)
    (hok : findHeaderRowIndex norm rows anchor limit = Except.ok h) :
    h < rows.length := by
  unfold findHeaderRowIndex at hok
  cases hx : findHeaderAux norm anchor (rows.take limit) with
  | some k =>
    rw [hx] at hok
    have hkh : k = h := by
      cases hok
      rfl
    subst hkh
    have hk := ((findHeaderAux_some_iff norm anchor (rows.take limit) k).mp hx).1
    by_contra hge
    push_neg at hge
    have hlen : (rows.take limit).length ≤ k := by
      simp only [List.length_take]
      omega
    rw [List.getD_eq_default _ _ hlen] at hk
    rw [rowHasAnchor_nil] at hk
    cases hk
  | none =>
    rw [hx] at hok
    cases hok

-- ===== per-row write lemmas =====

theorem textAtCol_modify_set_self (r : SRow) (i : Nat) (t ty : String)
    (col : Nat) (hf : findColIdx r col = some i) :
    textAtCol (modifyIdx r i (fun c => setCellData c t ty)) col = t := by
  have hlt := findColIdx_lt r col i hf
  simp only [textAtCol, cellAtCol, findColIdx_modify_set, hf, Option.map_some',
    Option.getD_some]
  rw [nthCell_modifyIdx_self _ _ _ hlt]
  rfl

theorem textAtCol_modify_set_other (r : SRow) (i : Nat) (t ty : String)
    (c c' : Nat) (hf : findColIdx r c = some i) (h : c' ≠ c) :
    textAtCol (modifyIdx r i (fun x => setCellData x t ty)) c' = textAtCol r c' := by
  simp [textAtCol, cellAtCol_modify_set_other r i t ty c c' hf h]

theorem textAtCol_found (r : SRow) (col i : Nat) (hf : findColIdx r col = some i) :
    textAtCol r col = getCellText (nthCell r i) := by
  simp [textAtCol, cellAtCol, hf]

theorem textAtCol_notFound (r : SRow) (col : Nat) (hf : findColIdx r col = none) :
    textAtCol r col = "" := by
  simp [textAtCol, cellAtCol, hf]

theorem fixWireLengthRow_text (colLen : Nat) (r : SRow) :
    textAtCol ((fixWireLengthRow colLen r).1) colLen =
      (if pyStrip (textAtCol r colLen) = "300" then "200"
       else textAtCol r colLen) := by
  unfold fixWireLengthRow
  cases hf : findColIdx r colLen with
  | none =>
    have ht := textAtCol_notFound r colLen hf
    rw [ht, if_neg (by decide)]
  | some i =>
    dsimp only
    have htxt := textAtCol_found r colLen i hf
    by_cases h3 : pyStrip (getCellText (nthCell r i)) = "300"
    · have hb : (pyStrip (getCellText (nthCell r i)) == "300") = true := by
        simp [h3]
      rw [if_pos hb]
      rw [textAtCol_modify_set_self r i _ _ colLen hf]
      rw [htxt, if_pos h3]
    · have hb : ¬ ((pyStrip (getCellText (nthCell r i)) == "300") = true) := by
        simp [h3]
      rw [if_neg hb]
      rw [htxt, if_neg h3]

/-- Claim C8: the 300-to-200 wire-length substitution fires only for files
whose basename contains the substring `null`; for such files every data
row's Wire Length value of `300` (after strip) becomes `200` and every
other value is untouched; for other files the table is returned unchanged
with zero changes. -/
theorem claimC8 (table : List SRow) (src anchor : String) :
    (containsSubstr ("null") (pathBasename src) = false →
      fixWireLengthForNullFiles table src anchor = Except.ok (table, 0)) ∧
    (∀ h colLen out,
      containsSubstr ("null") (pathBasename src) = true →
      findHeaderRowIndex pyStrip table anchor 80 = Except.ok h →
      fsHeaderCol (table.getD h []) ("Wire Length") = some colLen →
      fixWireLengthForNullFiles table src anchor = Except.ok out →
      ∀ i, h + 1 + i < table.length →
        textAtCol (out.1.getD (h + 1 + i) []) colLen =
          (if pyStrip (textAtCol (table.getD (h + 1 + i) []) colLen) = "300"
           then "200"
           else textAtCol (table.getD (h + 1 + i) []) colLen)) := by
  constructor
  · intro hnull
    unfold fixWireLengthForNullFiles
    simp [hnull]
  · intro h colLen out hnull hok hcol hout i hi
    unfold fixWireLengthForNullFiles at hout
    rw [hnull] at hout
    simp only [Bool.not_true, Bool.false_eq_true, if_false, hok, hcol] at hout
    cases hout
    have hlt := findHeaderRowIndex_lt pyStrip table anchor 80 h hok
    simp only [List.map_map]
    rw [fixedTable_getD table h _ hlt i, if_pos hi]
    exact fixWireLengthRow_text colLen (table.getD (h + 1 + i) [])

/-- Witness for C8: file `anullb.xml`, Wire Length `300` becomes `200`. -/
theorem claimC8_witness :
    textAtCol (((([[hdrCell 1 ("Order ID"), hdrCell 2 ("Wire Length")],
        [⟨some 2, some ("200", nType)⟩]] : List SRow), (1 : Nat))).1.getD 1 []) 2 =
      ("200") := by
  have H := (claimC8 tblLen ("anullb.xml") ("Order ID")).2 0 2
    (([[hdrCell 1 ("Order ID"), hdrCell 2 ("Wire Length")],
      [⟨some 2, some ("200", nType)⟩]] : List SRow), (1 : Nat))
    (by decide) (by rfl) (by rfl) (by rfl)
  have h2 := H 0 (by decide)
  rw [if_pos (by decide)] at h2
  exact h2

-- ===== article group fixer =====

theorem setArticleGroupRow_text (colAG colWire : Nat) (sect panel base : String)
    (r : SRow) :
    textAtCol ((setArticleGroupRow colAG colWire sect panel base r).1) colAG =
      articleGroupFinal sect panel base (textAtCol r colAG) (textAtCol r colWire) := by
  unfold setArticleGroupRow
  dsimp only
  have hget := getCellText_getOrCreate r colAG
  by_cases hc : getCellText (nthCell (getOrCreateCellAtPosition r colAG).1
      (getOrCreateCellAtPosition r colAG).2) =
      articleGroupFinal sect panel base (textAtCol r colAG) (textAtCol r colWire)
  · rw [if_neg (by simp [hc])]
    exact (textAtCol_getOrCreate_self r colAG).trans (hget.symm.trans hc)
  · rw [if_pos (by simp [hc])]
    exact textAtCol_modify_set_self _ _ _ _ colAG (findColIdx_getOrCreate r colAG)

/-- Claim C7: the group-label fixer writes
`<job> <section><panel><gauge><color>` into the Article Group column of
every data row, the suffix collapsing to the single token `null` whenever
section, panel or gauge+color is unresolvable; concretely, for file
`s5DpC14.xml`, empty existing label and Wire ID `18-WHT` the final label is
`null s5DpC1418WHT`. -/
theorem claimC7 :
    (∀ table src anchor h colAG colWire out,
      findHeaderRowIndex pyStrip table anchor 80 = Except.ok h →
      fsHeaderCol (table.getD h []) ("Article Group") = some colAG →
      fsHeaderCol (table.getD h []) ("Wire ID") = some colWire →
      setArticleGroup table src anchor = Except.ok out →
      ∀ i, h + 1 + i < table.length →
        textAtCol (out.1.getD (h + 1 + i) []) colAG =
          articleGroupFinal (parseSectionPanelFromFilename src).1
            (parseSectionPanelFromFilename src).2 (splitextStem (pathBasename src))
            (textAtCol (table.getD (h + 1 + i) []) colAG)
            (textAtCol (table.getD (h + 1 + i) []) colWire)) ∧
    (∀ sect panel base cur wire,
      articleGroupFinal sect panel base cur wire =
        ((jobFromAG cur).getD ((jobFromBase base).getD ("null"))) ++ " " ++
          (if sect ≠ "null" ∧ panel ≠ "null" ∧ parseGc wire ≠ "null"
           then sect ++ panel ++ parseGc wire else "null")) ∧
    (setArticleGroup tblAG ("s5DpC14.xml") ("Order ID")).map
        (fun out => textAtCol (out.1.getD 1 []) 2) =
      Except.ok ("null s5DpC1418WHT") := by
  refine ⟨?_, ?_, by rfl⟩
  · intro table src anchor h colAG colWire out hok hAG hWire hout i hi
    unfold setArticleGroup at hout
    rw [hok] at hout
    simp only [hAG, hWire] at hout
    cases hout
    have hlt := findHeaderRowIndex_lt pyStrip table anchor 80 h hok
    simp only [List.map_map]
    rw [fixedTable_getD table h _ hlt i, if_pos hi]
    exact setArticleGroupRow_text colAG colWire _ _ _ (table.getD (h + 1 + i) [])
  · intro sect panel base cur wire
    unfold articleGroupFinal
    dsimp only
    congr 1
    · congr 1
      cases hj : jobFromAG cur with
      | some j => rfl
      | none => rfl
    · by_cases h1 : sect = "null"
      · rw [if_neg (by simp [h1]), if_neg (by simp [h1])]
      · by_cases h2 : panel = "null"
        · rw [if_neg (by simp [h2]), if_neg (by simp [h2])]
        · by_cases h3 : parseGc wire = "null"
          · rw [if_neg (by simp [h3]), if_neg (by simp [h3])]
          · rw [if_pos (by simp [h1, h2, h3]), if_pos ⟨h1, h2, h3⟩]

/-- Witness for C7: the Article Group written for the demo table equals the
label formula instantiated at `s5DpC14.xml` and Wire ID `18-WHT`. -/
theorem claimC7_witness :
    textAtCol (((([[hdrCell 1 ("Order ID"), hdrCell 2 ("Article Group"),
          hdrCell 3 ("Wire ID")],
        [⟨some 3, some ("18-WHT", sType)⟩,
         ⟨some 2, some ("null s5DpC1418WHT", sType)⟩]] : List SRow),
        (1 : Nat))).1.getD 1 []) 2 =
      articleGroupFinal (parseSectionPanelFromFilename ("s5DpC14.xml")).1
        (parseSectionPanelFromFilename ("s5DpC14.xml")).2
        (splitextStem (pathBasename ("s5DpC14.xml")))
        (textAtCol (tblAG.getD 1 []) 2) (textAtCol (tblAG.getD 1 []) 3) := by
  exact claimC7.1 tblAG ("s5DpC14.xml") ("Order ID") 0 2 3
    (([[hdrCell 1 ("Order ID"), hdrCell 2 ("Article Group"), hdrCell 3 ("Wire ID")],
      [⟨some 3, some ("18-WHT", sType)⟩,
       ⟨some 2, some ("null s5DpC1418WHT", sType)⟩]] : List SRow), (1 : Nat))
    (by rfl) (by rfl) (by rfl) (by rfl) 0 (by decide)

-- ===== missing-header behaviour =====

/-- Counterexample to C6 as stated: with `Printer1 Wire1 BeginText` absent
from the header, `clear_printer_texts` still clears the EndText column and
returns one change, mutating the table. -/
theorem claimC6_counterexample :
    fsHeaderCol (tblEndOnly.getD 0 []) ("Printer1 Wire1 BeginText") = none ∧
    clearPrinterTexts tblEndOnly ("Order ID") =
      Except.ok ([[hdrCell 1 ("Order ID"), hdrCell 2 ("Printer1 Wire1 EndText")],
        [⟨some 2, some ("", sType)⟩]], 1) ∧
    ([[hdrCell 1 ("Order ID"), hdrCell 2 ("Printer1 Wire1 EndText")],
        [⟨some 2, some ("", sType)⟩]] : List SRow) ≠ tblEndOnly := by
  refine ⟨by rfl, by rfl, by decide⟩

/-- Claim C6 as amended: a fixer whose required headers are ALL missing
performs no mutation and returns zero changes (`clear_printer_texts` with
both printer-text names missing; `set_article_group` with Article Group or
Wire ID missing; the wire-length fix with Wire Length missing) — but
`clear_printer_texts` treats its two names independently, and the rules
crimp engine looks its columns up with hardcoded fallbacks instead of
skipping. -/
theorem claimC6_amended :
    (∀ table anchor h,
      findHeaderRowIndex pyStrip table anchor 80 = Except.ok h →
      fsHeaderCol (table.getD h []) ("Printer1 Wire1 BeginText") = none →
      fsHeaderCol (table.getD h []) ("Printer1 Wire1 EndText") = none →
      clearPrinterTexts table anchor = Except.ok (table, 0)) ∧
    (∀ table src anchor h,
      findHeaderRowIndex pyStrip table anchor 80 = Except.ok h →
      (fsHeaderCol (table.getD h []) ("Article Group") = none ∨
       fsHeaderCol (table.getD h []) ("Wire ID") = none) →
      setArticleGroup table src anchor = Except.ok (table, 0)) ∧
    (∀ table src anchor h,
      findHeaderRowIndex pyStrip table anchor 80 = Except.ok h →
      fsHeaderCol (table.getD h []) ("Wire Length") = none →
      fixWireLengthForNullFiles table src anchor = Except.ok (table, 0)) := by
  refine ⟨?_, ?_, ?_⟩
  · intro table anchor h hok hB hE
    unfold clearPrinterTexts
    rw [hok]
    dsimp only
    simp only [List.foldl_cons, List.foldl_nil, clearPrinterTextsName, hB, hE]
    rw [List.take_append_drop]
  · intro table src anchor h hok hor
    unfold setArticleGroup
    rw [hok]
    dsimp only
    rcases hor with hAG | hWire
    · rw [hAG]
    · cases hAG2 : fsHeaderCol (table.getD h []) ("Article Group") with
      | none => rfl
      | some c => rw [hWire]
  · intro table src anchor h hok hL
    unfold fixWireLengthForNullFiles
    by_cases hn : containsSubstr ("null") (pathBasename src) = true
    · rw [if_neg (by simp [hn]), hok]
      dsimp only
      rw [hL]
    · rw [if_pos (by simp at hn ⊢; exact hn)]

/-- Witness for the amended C6 on a bare table lacking all those headers. -/
theorem claimC6_witness :
    clearPrinterTexts tblBare ("Order ID") = Except.ok (tblBare, 0) ∧
    setArticleGroup tblBare ("f.xml") ("Order ID") = Except.ok (tblBare, 0) ∧
    fixWireLengthForNullFiles tblBare ("anullb.xml") ("Order ID") =
      Except.ok (tblBare, 0) := by
  refine ⟨claimC6_amended.1 tblBare ("Order ID") 0 (by rfl) (by rfl) (by rfl),
    claimC6_amended.2.1 tblBare ("f.xml") ("Order ID") 0 (by rfl) (Or.inl (by rfl)),
    claimC6_amended.2.2 tblBare ("anullb.xml") ("Order ID") 0 (by rfl) (by rfl)⟩

-- ===== crimp write-step lemmas =====

theorem textAtCol_getOrCreate_any (r : SRow) (col c : Nat) :
    textAtCol ((getOrCreateCellAtPosition r col).1) c = textAtCol r c := by
  by_cases h : c = col
  · subst h
    exact textAtCol_getOrCreate_self r c
  · exact textAtCol_getOrCreate_other r col c h

theorem getOrCreate_of_text_nonempty (r : SRow) (col : Nat)
    (h : textAtCol r col ≠ "") :
    (getOrCreateCellAtPosition r col).1 = r := by
  obtain ⟨i, hi⟩ := textAtCol_nonempty_found r col h
  rw [getOrCreate_found r col i hi]

theorem writeCrimpAt_zero (r : SRow) (t k1 k2 : Nat) (cid : String)
    (h : pyStrip (textAtCol r t) ≠ "") :
    writeCrimpAt r t k1 k2 cid = (r, 0) := by
  have hraw : textAtCol r t ≠ "" := by
    intro hr
    exact h (by rw [hr]; rfl)
  obtain ⟨i, hi⟩ := textAtCol_nonempty_found r t hraw
  unfold writeCrimpAt
  rw [getOrCreate_found r t i hi]
  dsimp only
  rw [if_neg]
  intro hc
  rw [beq_iff_eq] at hc
  rw [textAtCol_found r t i hi] at h
  exact h hc

theorem writeCrimpAt_zero_eq (r : SRow) (t k1 k2 : Nat) (cid : String)
    (h : (writeCrimpAt r t k1 k2 cid).2 = 0) :
    (writeCrimpAt r t k1 k2 cid).1 = r := by
  by_cases he : pyStrip (textAtCol r t) = ""
  · exfalso
    unfold writeCrimpAt at h
    rw [if_pos (by rw [beq_iff_eq, getCellText_getOrCreate]; exact he)] at h
    simp at h
  · rw [writeCrimpAt_zero r t k1 k2 cid he]

theorem writeCrimpAt_write_eq (r : SRow) (t k1 k2 : Nat) (cid : String)
    (h : pyStrip (textAtCol r t) = "") :
    writeCrimpAt r t k1 k2 cid =
      (setTextAtCol (setTextAtCol
        (setTextAtCol (getOrCreateCellAtPosition r t).1 t cid sType)
        k1 ("") sType) k2 ("") sType, 1) := by
  unfold writeCrimpAt
  rw [if_pos (by rw [beq_iff_eq, getCellText_getOrCreate]; exact h)]

theorem writeCrimpAt_frame (r : SRow) (t k1 k2 : Nat) (cid : String) (c : Nat)
    (hc1 : c ≠ t) (hc2 : c ≠ k1) (hc3 : c ≠ k2) :
    textAtCol ((writeCrimpAt r t k1 k2 cid).1) c = textAtCol r c := by
  by_cases he : pyStrip (textAtCol r t) = ""
  · rw [writeCrimpAt_write_eq r t k1 k2 cid he]
    dsimp only
    rw [textAtCol_setTextAtCol_other _ _ _ _ _ hc3,
      textAtCol_setTextAtCol_other _ _ _ _ _ hc2,
      textAtCol_setTextAtCol_other _ _ _ _ _ hc1]
    exact textAtCol_getOrCreate_any r t c
  · rw [writeCrimpAt_zero r t k1 k2 cid he]

theorem writeCrimpAt_one_spec (r : SRow) (t k1 k2 : Nat) (cid : String)
    (hone : (writeCrimpAt r t k1 k2 cid).2 = 1)
    (hk1 : k1 ≠ t) (hk2 : k2 ≠ t) :
    pyStrip (textAtCol r t) = "" ∧
    textAtCol ((writeCrimpAt r t k1 k2 cid).1) t = cid ∧
    dataAtCol ((writeCrimpAt r t k1 k2 cid).1) k1 = some ("", sType) ∧
    dataAtCol ((writeCrimpAt r t k1 k2 cid).1) k2 = some ("", sType) := by
  have he : pyStrip (textAtCol r t) = "" := by
    by_contra hne
    rw [writeCrimpAt_zero r t k1 k2 cid hne] at hone
    simp at hone
  refine ⟨he, ?_, ?_, ?_⟩
  · rw [writeCrimpAt_write_eq r t k1 k2 cid he]
    dsimp only
    rw [textAtCol_setTextAtCol_other _ _ _ _ _ (Ne.symm hk2),
      textAtCol_setTextAtCol_other _ _ _ _ _ (Ne.symm hk1),
      textAtCol_setTextAtCol_same]
  · rw [writeCrimpAt_write_eq r t k1 k2 cid he]
    dsimp only
    by_cases h12 : k1 = k2
    · subst h12
      rw [dataAtCol_setTextAtCol_same]
    · rw [dataAtCol_setTextAtCol_other _ _ _ _ _ h12,
        dataAtCol_setTextAtCol_same]
  · rw [writeCrimpAt_write_eq r t k1 k2 cid he]
    dsimp only
    rw [dataAtCol_setTextAtCol_same]


-- ===== auto-crimp per-row lemmas =====

theorem autoCrimpWritePhase_skip (r : SRow) (cid pref : String) (lOk rOk : Bool) :
    (pyStrip (textAtCol r 15) ≠ "" → pyStrip (textAtCol r 15) ≠ cid →
      autoCrimpWritePhase r cid pref lOk rOk = (r, 0)) ∧
    (pyStrip (textAtCol r 19) ≠ "" → pyStrip (textAtCol r 19) ≠ cid →
      autoCrimpWritePhase r cid pref lOk rOk = (r, 0)) ∧
    (pyStrip (textAtCol r 15) ≠ "" → pyStrip (textAtCol r 19) ≠ "" →
      autoCrimpWritePhase r cid pref lOk rOk = (r, 0)) := by
  refine ⟨?_, ?_, ?_⟩ <;> intro h1 h2 <;>
    (unfold autoCrimpWritePhase; dsimp only; split_ifs <;>
      first | rfl | simp_all)

theorem autoCrimpWritePhase_one_spec (r : SRow) (cid pref : String)
    (lOk rOk : Bool)
    (hone : (autoCrimpWritePhase r cid pref lOk rOk).2 = 1) :
    (textAtCol ((autoCrimpWritePhase r cid pref lOk rOk).1) 15 = cid ∧
     dataAtCol ((autoCrimpWritePhase r cid pref lOk rOk).1) 14 = some ("", sType) ∧
     dataAtCol ((autoCrimpWritePhase r cid pref lOk rOk).1) 13 = some ("", sType) ∧
     textAtCol ((autoCrimpWritePhase r cid pref lOk rOk).1) 19 = textAtCol r 19) ∨
    (textAtCol ((autoCrimpWritePhase r cid pref lOk rOk).1) 19 = cid ∧
     dataAtCol ((autoCrimpWritePhase r cid pref lOk rOk).1) 18 = some ("", sType) ∧
     dataAtCol ((autoCrimpWritePhase r cid pref lOk rOk).1) 17 = some ("", sType) ∧
     textAtCol ((autoCrimpWritePhase r cid pref lOk rOk).1) 15 = textAtCol r 15) := by
  unfold autoCrimpWritePhase at hone ⊢
  dsimp only at hone ⊢
  split_ifs at hone ⊢ <;>
    first
      | simp at hone
      | exact Or.inl ⟨(writeCrimpAt_one_spec r 15 14 13 cid hone (by decide) (by decide)).2.1,
          (writeCrimpAt_one_spec r 15 14 13 cid hone (by decide) (by decide)).2.2.1,
          (writeCrimpAt_one_spec r 15 14 13 cid hone (by decide) (by decide)).2.2.2,
          writeCrimpAt_frame r 15 14 13 cid 19 (by decide) (by decide) (by decide)⟩
      | exact Or.inr ⟨(writeCrimpAt_one_spec r 19 18 17 cid hone (by decide) (by decide)).2.1,
          (writeCrimpAt_one_spec r 19 18 17 cid hone (by decide) (by decide)).2.2.1,
          (writeCrimpAt_one_spec r 19 18 17 cid hone (by decide) (by decide)).2.2.2,
          writeCrimpAt_frame r 19 18 17 cid 15 (by decide) (by decide) (by decide)⟩

theorem autoCrimpWritePhase_never_both (r : SRow) (cid pref : String)
    (lOk rOk : Bool) :
    (textAtCol ((autoCrimpWritePhase r cid pref lOk rOk).1) 15 ≠ textAtCol r 15 →
      textAtCol ((autoCrimpWritePhase r cid pref lOk rOk).1) 19 = textAtCol r 19) ∧
    (textAtCol ((autoCrimpWritePhase r cid pref lOk rOk).1) 19 ≠ textAtCol r 19 →
      textAtCol ((autoCrimpWritePhase r cid pref lOk rOk).1) 15 = textAtCol r 15) := by
  unfold autoCrimpWritePhase
  dsimp only
  split_ifs
  · exact ⟨fun _ => rfl, fun _ => rfl⟩
  · exact ⟨fun _ => rfl, fun _ => rfl⟩
  · exact ⟨fun _ => rfl, fun _ => rfl⟩
  · exact ⟨fun _ => writeCrimpAt_frame r 15 14 13 cid 19 (by decide) (by decide) (by decide),
      fun hch => absurd
        (writeCrimpAt_frame r 15 14 13 cid 19 (by decide) (by decide) (by decide)) hch⟩
  · exact ⟨fun hch => absurd
        (writeCrimpAt_frame r 19 18 17 cid 15 (by decide) (by decide) (by decide)) hch,
      fun _ => writeCrimpAt_frame r 19 18 17 cid 15 (by decide) (by decide) (by decide)⟩

theorem autoCrimpRow_cases (cw ca : Nat) (g : Option Nat) (pl : Option Char)
    (cid pref : String) (r : SRow) :
    autoCrimpRow cw ca g pl cid pref r = (r, 0) ∨
    ∃ lOk rOk, autoCrimpRow cw ca g pl cid pref r =
      autoCrimpWritePhase r cid pref lOk rOk := by
  unfold autoCrimpRow
  dsimp only
  split_ifs <;> first | exact Or.inl rfl | exact Or.inr ⟨_, _, rfl⟩

theorem autoCrimpRow_skip (cw ca : Nat) (g : Option Nat) (pl : Option Char)
    (cid pref : String) (r : SRow) :
    (pyStrip (textAtCol r 15) ≠ "" → pyStrip (textAtCol r 15) ≠ cid →
      autoCrimpRow cw ca g pl cid pref r = (r, 0)) ∧
    (pyStrip (textAtCol r 19) ≠ "" → pyStrip (textAtCol r 19) ≠ cid →
      autoCrimpRow cw ca g pl cid pref r = (r, 0)) ∧
    (pyStrip (textAtCol r 15) ≠ "" → pyStrip (textAtCol r 19) ≠ "" →
      autoCrimpRow cw ca g pl cid pref r = (r, 0)) := by
  rcases autoCrimpRow_cases cw ca g pl cid pref r with h | ⟨lOk, rOk, h⟩
  · rw [h]
    exact ⟨fun _ _ => rfl, fun _ _ => rfl, fun _ _ => rfl⟩
  · rw [h]
    exact autoCrimpWritePhase_skip r cid pref lOk rOk

theorem autoCrimpRow_one_spec (cw ca : Nat) (g : Option Nat) (pl : Option Char)
    (cid pref : String) (r : SRow)
    (hone : (autoCrimpRow cw ca g pl cid pref r).2 = 1) :
    (textAtCol ((autoCrimpRow cw ca g pl cid pref r).1) 15 = cid ∧
     dataAtCol ((autoCrimpRow cw ca g pl cid pref r).1) 14 = some ("", sType) ∧
     dataAtCol ((autoCrimpRow cw ca g pl cid pref r).1) 13 = some ("", sType) ∧
     textAtCol ((autoCrimpRow cw ca g pl cid pref r).1) 19 = textAtCol r 19) ∨
    (textAtCol ((autoCrimpRow cw ca g pl cid pref r).1) 19 = cid ∧
     dataAtCol ((autoCrimpRow cw ca g pl cid pref r).1) 18 = some ("", sType) ∧
     dataAtCol ((autoCrimpRow cw ca g pl cid pref r).1) 17 = some ("", sType) ∧
     textAtCol ((autoCrimpRow cw ca g pl cid pref r).1) 15 = textAtCol r 15) := by
  rcases autoCrimpRow_cases cw ca g pl cid pref r with h | ⟨lOk, rOk, h⟩
  · rw [h] at hone
    simp at hone
  · rw [h] at hone ⊢
    exact autoCrimpWritePhase_one_spec r cid pref lOk rOk hone

theorem autoCrimpRow_never_both (cw ca : Nat) (g : Option Nat) (pl : Option Char)
    (cid pref : String) (r : SRow) :
    (textAtCol ((autoCrimpRow cw ca g pl cid pref r).1) 15 ≠ textAtCol r 15 →
      textAtCol ((autoCrimpRow cw ca g pl cid pref r).1) 19 = textAtCol r 19) ∧
    (textAtCol ((autoCrimpRow cw ca g pl cid pref r).1) 19 ≠ textAtCol r 19 →
      textAtCol ((autoCrimpRow cw ca g pl cid pref r).1) 15 = textAtCol r 15) := by
  rcases autoCrimpRow_cases cw ca g pl cid pref r with h | ⟨lOk, rOk, h⟩
  · rw [h]
    exact ⟨fun _ => rfl, fun _ => rfl⟩
  · rw [h]
    exact autoCrimpWritePhase_never_both r cid pref lOk rOk

-- ===== rules-engine per-row lemmas =====

theorem writeCrimpAt_target_change (r : SRow) (t k1 k2 : Nat) (cid : String)
    (hch : textAtCol ((writeCrimpAt r t k1 k2 cid).1) t ≠ textAtCol r t) :
    pyStrip (textAtCol r t) = "" := by
  by_cases h : pyStrip (textAtCol r t) = ""
  · exact h
  · rw [writeCrimpAt_zero r t k1 k2 cid h] at hch
    exact absurd rfl hch

theorem ruleGuardedWrite_cases (r2 : SRow) (vL vR : String)
    (leftCol rightCol tc0 : Nat) (cid : String)
    (htc0 : tc0 = leftCol ∨ tc0 = rightCol) :
    ruleGuardedWrite r2 vL vR leftCol rightCol tc0 cid = (r2, 0) ∨
    ∃ tc, (tc = leftCol ∨ tc = rightCol) ∧
      ruleGuardedWrite r2 vL vR leftCol rightCol tc0 cid =
        writeCrimpAt r2 tc (tc - 1) (tc - 2) cid := by
  unfold ruleGuardedWrite
  dsimp only
  split_ifs
  · exact Or.inl rfl
  · exact Or.inl rfl
  · exact Or.inl rfl
  · exact Or.inr ⟨rightCol, Or.inr rfl, rfl⟩
  · exact Or.inr ⟨leftCol, Or.inl rfl, rfl⟩
  · exact Or.inr ⟨tc0, htc0, rfl⟩

theorem ruleWritePhase_cases (r : SRow) (rule : CrimpRule) (side : Nat) :
    ∃ r2, (∀ c, textAtCol r2 c = textAtCol r c) ∧
      (ruleWritePhase r rule side = (r2, 0) ∨
       ∃ tc, (tc = rule.colLeft.getD 15 ∨ tc = rule.colRight.getD 19) ∧
         ruleWritePhase r rule side =
           writeCrimpAt r2 tc (tc - 1) (tc - 2) rule.crimpId) := by
  refine ⟨(getOrCreateCellAtPosition
      ((getOrCreateCellAtPosition r (rule.colLeft.getD 15)).1)
      (rule.colRight.getD 19)).1, fun c =>
    (textAtCol_getOrCreate_any _ _ c).trans (textAtCol_getOrCreate_any r _ c), ?_⟩
  unfold ruleWritePhase
  dsimp only
  exact ruleGuardedWrite_cases _ _ _ _ _ _ _
    (by by_cases h : (side == 15) = true <;> simp [h])

theorem ruleWritePhase_frame (r : SRow) (rule : CrimpRule) (side : Nat) :
    ∃ tc, (tc = rule.colLeft.getD 15 ∨ tc = rule.colRight.getD 19) ∧
      (∀ c, c ≠ tc → c ≠ tc - 1 → c ≠ tc - 2 →
        textAtCol ((ruleWritePhase r rule side).1) c = textAtCol r c) ∧
      (textAtCol ((ruleWritePhase r rule side).1) tc ≠ textAtCol r tc →
        pyStrip (textAtCol r tc) = "") := by
  obtain ⟨r2, hr2, hcase | ⟨tc, htc, heq⟩⟩ := ruleWritePhase_cases r rule side
  · refine ⟨rule.colLeft.getD 15, Or.inl rfl, ?_, ?_⟩
    · intro c h1 h2 h3
      rw [hcase]
      exact hr2 c
    · intro hch
      rw [hcase] at hch
      exact absurd (hr2 _) hch
  · refine ⟨tc, htc, ?_, ?_⟩
    · intro c h1 h2 h3
      rw [heq]
      exact (writeCrimpAt_frame _ _ _ _ _ c h1 h2 h3).trans (hr2 c)
    · intro hch
      rw [heq] at hch
      have hx := writeCrimpAt_target_change _ _ _ _ _ (by rw [hr2]; exact hch)
      rw [hr2] at hx
      exact hx

theorem ruleWritePhase_both_nonempty (r : SRow) (rule : CrimpRule) (side : Nat)
    (h15 : pyStrip (textAtCol r (rule.colLeft.getD 15)) ≠ "")
    (h19 : pyStrip (textAtCol r (rule.colRight.getD 19)) ≠ "") :
    ruleWritePhase r rule side = (r, 0) := by
  have hLraw : textAtCol r (rule.colLeft.getD 15) ≠ "" := by
    intro he
    exact h15 (by rw [he]; rfl)
  have hRraw : textAtCol r (rule.colRight.getD 19) ≠ "" := by
    intro he
    exact h19 (by rw [he]; rfl)
  obtain ⟨iL, hiL⟩ := textAtCol_nonempty_found r _ hLraw
  obtain ⟨iR, hiR⟩ := textAtCol_nonempty_found r _ hRraw
  unfold ruleWritePhase
  dsimp only
  rw [getOrCreate_found r _ iL hiL]
  dsimp only
  rw [getOrCreate_found r _ iR hiR]
  dsimp only
  unfold ruleGuardedWrite
  rw [if_pos]
  rw [← textAtCol_found r _ iL hiL, ← textAtCol_found r _ iR hiR]
  simp only [Bool.and_eq_true, bne_iff_ne, ne_eq]
  exact ⟨h15, h19⟩

theorem ruleWritePhase_default_protect (r : SRow) (rule : CrimpRule) (side : Nat)
    (hL : rule.colLeft.getD 15 = 15) (hR : rule.colRight.getD 19 = 19) :
    (pyStrip (textAtCol r 15) ≠ "" →
      textAtCol ((ruleWritePhase r rule side).1) 15 = textAtCol r 15) ∧
    (pyStrip (textAtCol r 19) ≠ "" →
      textAtCol ((ruleWritePhase r rule side).1) 19 = textAtCol r 19) ∧
    (pyStrip (textAtCol r 15) ≠ "" → pyStrip (textAtCol r 19) ≠ "" →
      ruleWritePhase r rule side = (r, 0)) := by
  refine ⟨?_, ?_, ?_⟩
  · intro hne
    obtain ⟨tc, htc, hframe, hempty⟩ := ruleWritePhase_frame r rule side
    rw [hL, hR] at htc
    rcases htc with h | h
    · subst h
      by_cases hch : textAtCol ((ruleWritePhase r rule side).1) 15 = textAtCol r 15
      · exact hch
      · exact absurd (hempty hch) hne
    · subst h
      exact hframe 15 (by omega) (by omega) (by omega)
  · intro hne
    obtain ⟨tc, htc, hframe, hempty⟩ := ruleWritePhase_frame r rule side
    rw [hL, hR] at htc
    rcases htc with h | h
    · subst h
      exact hframe 19 (by omega) (by omega) (by omega)
    · subst h
      by_cases hch : textAtCol ((ruleWritePhase r rule side).1) 19 = textAtCol r 19
      · exact hch
      · exact absurd (hempty hch) hne
  · intro h15 h19
    exact ruleWritePhase_both_nonempty r rule side (by rw [hL]; exact h15)
      (by rw [hR]; exact h19)

theorem ruleWritePhase_never_both (r : SRow) (rule : CrimpRule) (side : Nat) :
    (textAtCol ((ruleWritePhase r rule side).1) 15 ≠ textAtCol r 15 →
      textAtCol ((ruleWritePhase r rule side).1) 19 = textAtCol r 19) ∧
    (textAtCol ((ruleWritePhase r rule side).1) 19 ≠ textAtCol r 19 →
      textAtCol ((ruleWritePhase r rule side).1) 15 = textAtCol r 15) := by
  obtain ⟨tc, _, hframe, _⟩ := ruleWritePhase_frame r rule side
  constructor
  · intro hch
    by_cases h19 : 19 = tc ∨ 19 = tc - 1 ∨ 19 = tc - 2
    · rcases h19 with h | h | h <;>
        exact absurd (hframe 15 (by omega) (by omega) (by omega)) hch
    · push_neg at h19
      exact hframe 19 h19.1 h19.2.1 h19.2.2
  · intro hch
    by_cases h15 : 15 = tc ∨ 15 = tc - 1 ∨ 15 = tc - 2
    · rcases h15 with h | h | h <;>
        exact absurd (hframe 19 (by omega) (by omega) (by omega)) hch
    · push_neg at h15
      exact hframe 15 h15.1 h15.2.1 h15.2.2

theorem ruleWritePhase_one_spec (r : SRow) (rule : CrimpRule) (side : Nat)
    (hone : (ruleWritePhase r rule side).2 = 1)
    (hL3 : 2 < rule.colLeft.getD 15) (hR3 : 2 < rule.colRight.getD 19) :
    ∃ tc, (tc = rule.colLeft.getD 15 ∨ tc = rule.colRight.getD 19) ∧
      textAtCol ((ruleWritePhase r rule side).1) tc = rule.crimpId ∧
      dataAtCol ((ruleWritePhase r rule side).1) (tc - 1) = some ("", sType) ∧
      dataAtCol ((ruleWritePhase r rule side).1) (tc - 2) = some ("", sType) := by
  obtain ⟨r2, hr2, hcase | ⟨tc, htc, heq⟩⟩ := ruleWritePhase_cases r rule side
  · rw [hcase] at hone
    simp at hone
  · rw [heq] at hone ⊢
    have htc3 : 2 < tc := by
      rcases htc with h | h <;> omega
    exact ⟨tc, htc,
      (writeCrimpAt_one_spec _ _ _ _ _ hone (by omega) (by omega)).2.1,
      (writeCrimpAt_one_spec _ _ _ _ _ hone (by omega) (by omega)).2.2.1,
      (writeCrimpAt_one_spec _ _ _ _ _ hone (by omega) (by omega)).2.2.2⟩

theorem tryCrimpRules_cases (plt : Option Char) (fg : Option Nat)
    (pd wt : String) (lt rt : Option String) (rules : List CrimpRule) (r : SRow) :
    tryCrimpRules plt fg pd wt lt rt rules r = (r, 0) ∨
    ∃ rule, rule ∈ rules ∧ ∃ side,
      tryCrimpRules plt fg pd wt lt rt rules r = ruleWritePhase r rule side := by
  induction rules with
  | nil => exact Or.inl rfl
  | cons rule rest ih =>
    unfold tryCrimpRules
    dsimp only
    split_ifs with hm
    · rcases ih with h | ⟨ru, hru, side, h⟩
      · exact Or.inl h
      · exact Or.inr ⟨ru, List.mem_cons_of_mem _ hru, side, h⟩
    · cases hd : decideSideByRule rule lt rt (pyLower (rule.preferWhenBoth.getD pd)) with
      | none =>
        rcases ih with h | ⟨ru, hru, side, h⟩
        · exact Or.inl h
        · exact Or.inr ⟨ru, List.mem_cons_of_mem _ hru, side, h⟩
      | some side => exact Or.inr ⟨rule, List.mem_cons_self _ _, side, rfl⟩

-- ===== tryCrimpRules lifted lemmas =====

theorem tryCrimpRules_default_protect (plt : Option Char) (fg : Option Nat)
    (pd wt : String) (lt rt : Option String) (rules : List CrimpRule) (r : SRow)
    (Hcols : ∀ rule ∈ rules,
      rule.colLeft.getD 15 = 15 ∧ rule.colRight.getD 19 = 19) :
    (pyStrip (textAtCol r 15) ≠ "" →
      textAtCol ((tryCrimpRules plt fg pd wt lt rt rules r).1) 15 =
        textAtCol r 15) ∧
    (pyStrip (textAtCol r 19) ≠ "" →
      textAtCol ((tryCrimpRules plt fg pd wt lt rt rules r).1) 19 =
        textAtCol r 19) ∧
    (pyStrip (textAtCol r 15) ≠ "" → pyStrip (textAtCol r 19) ≠ "" →
      tryCrimpRules plt fg pd wt lt rt rules r = (r, 0)) := by
  rcases tryCrimpRules_cases plt fg pd wt lt rt rules r with h | ⟨ru, hru, side, h⟩
  · rw [h]
    exact ⟨fun _ => rfl, fun _ => rfl, fun _ _ => rfl⟩
  · rw [h]
    obtain ⟨hL, hR⟩ := Hcols ru hru
    exact ruleWritePhase_default_protect r ru side hL hR

theorem tryCrimpRules_never_both (plt : Option Char) (fg : Option Nat)
    (pd wt : String) (lt rt : Option String) (rules : List CrimpRule) (r : SRow) :
    (textAtCol ((tryCrimpRules plt fg pd wt lt rt rules r).1) 15 ≠
        textAtCol r 15 →
      textAtCol ((tryCrimpRules plt fg pd wt lt rt rules r).1) 19 =
        textAtCol r 19) ∧
    (textAtCol ((tryCrimpRules plt fg pd wt lt rt rules r).1) 19 ≠
        textAtCol r 19 →
      textAtCol ((tryCrimpRules plt fg pd wt lt rt rules r).1) 15 =
        textAtCol r 15) := by
  rcases tryCrimpRules_cases plt fg pd wt lt rt rules r with h | ⟨ru, hru, side, h⟩
  · rw [h]
    exact ⟨fun _ => rfl, fun _ => rfl⟩
  · rw [h]
    exact ruleWritePhase_never_both r ru side

theorem tryCrimpRules_one_spec (plt : Option Char) (fg : Option Nat)
    (pd wt : String) (lt rt : Option String) (rules : List CrimpRule) (r : SRow)
    (Hcols : ∀ rule ∈ rules,
      2 < rule.colLeft.getD 15 ∧ 2 < rule.colRight.getD 19)
    (hone : (tryCrimpRules plt fg pd wt lt rt rules r).2 = 1) :
    ∃ rule, rule ∈ rules ∧ ∃ tc,
      (tc = rule.colLeft.getD 15 ∨ tc = rule.colRight.getD 19) ∧
      textAtCol ((tryCrimpRules plt fg pd wt lt rt rules r).1) tc = rule.crimpId ∧
      dataAtCol ((tryCrimpRules plt fg pd wt lt rt rules r).1) (tc - 1) =
        some ("", sType) ∧
      dataAtCol ((tryCrimpRules plt fg pd wt lt rt rules r).1) (tc - 2) =
        some ("", sType) := by
  rcases tryCrimpRules_cases plt fg pd wt lt rt rules r with h | ⟨ru, hru, side, h⟩
  · rw [h] at hone
    simp at hone
  · rw [h] at hone ⊢
    obtain ⟨hL3, hR3⟩ := Hcols ru hru
    obtain ⟨tc, htc, hrest⟩ := ruleWritePhase_one_spec r ru side hone hL3 hR3
    exact ⟨ru, hru, tc, htc, hrest⟩

-- ===== claims on the crimp engines =====

/-- Counterexample to C2 as stated: with the column override
`{left: 18, right: 19}`, the rule engine writes the crimp id to column 19
and unconditionally blanks columns 18 and 17, overwriting the left target
column 18, which held `OLD`, a non-empty value different from the rule's
crimp id `CR`. -/
theorem claimC2_counterexample :
    textAtCol (tblOverlap.getD 1 []) 18 = "OLD" ∧
    ruleOverlap.crimpId = "CR" ∧
    ruleOverlap.colLeft.getD 15 = 18 ∧
    (applyCrimpRules tblOverlap ("x.xml") rsOverlap ("Order ID")).map
        (fun out => textAtCol (out.1.getD 1 []) 18) = Except.ok ("") := by
  refine ⟨by rfl, by rfl, by rfl, by rfl⟩

/-- Claim C2 as amended: in the hardcoded strategy a target column (15 or
19) holding a non-empty value different from the crimp id makes the engine
leave the row unchanged, and a row with both target columns non-empty is
left unchanged; in the rules strategy the same protection holds provided
every rule uses the default (or at least non-overlapping) target columns
15/19 — in fact any non-empty target column is then never overwritten, and
a row with both targets non-empty is returned untouched. -/
theorem claimC2_amended :
    (∀ (cw ca : Nat) (g : Option Nat) (pl : Option Char) (cid pref : String)
      (r : SRow),
      (pyStrip (textAtCol r 15) ≠ "" → pyStrip (textAtCol r 15) ≠ cid →
        autoCrimpRow cw ca g pl cid pref r = (r, 0)) ∧
      (pyStrip (textAtCol r 19) ≠ "" → pyStrip (textAtCol r 19) ≠ cid →
        autoCrimpRow cw ca g pl cid pref r = (r, 0)) ∧
      (pyStrip (textAtCol r 15) ≠ "" → pyStrip (textAtCol r 19) ≠ "" →
        autoCrimpRow cw ca g pl cid pref r = (r, 0))) ∧
    (∀ (plt : Option Char) (fg : Option Nat) (pd wt : String)
      (lt rt : Option String) (rules : List CrimpRule) (r : SRow),
      (∀ rule ∈ rules,
        rule.colLeft.getD 15 = 15 ∧ rule.colRight.getD 19 = 19) →
      (pyStrip (textAtCol r 15) ≠ "" →
        textAtCol ((tryCrimpRules plt fg pd wt lt rt rules r).1) 15 =
          textAtCol r 15) ∧
      (pyStrip (textAtCol r 19) ≠ "" →
        textAtCol ((tryCrimpRules plt fg pd wt lt rt rules r).1) 19 =
          textAtCol r 19) ∧
      (pyStrip (textAtCol r 15) ≠ "" → pyStrip (textAtCol r 19) ≠ "" →
        tryCrimpRules plt fg pd wt lt rt rules r = (r, 0))) :=
  ⟨fun cw ca g pl cid pref r => autoCrimpRow_skip cw ca g pl cid pref r,
   fun plt fg pd wt lt rt rules r Hcols =>
     tryCrimpRules_default_protect plt fg pd wt lt rt rules r Hcols⟩

/-- Witness for the amended C2: a row whose column 15 holds OTHER is left
unchanged by the hardcoded engine and keeps its column-15 value under the
default-column rule set. -/
theorem claimC2_witness :
    autoCrimpRow 11 6 (some 14) (some 'C') ("018769-025") ("left")
      (tblOther15.getD 1 []) = (tblOther15.getD 1 [], 0) ∧
    textAtCol ((tryCrimpRules (some 'C') (some 14) ("left") ("14-WHT")
        (some ("PSS1")) (some ("PSS1")) rsPlain.rules
        (tblOther15.getD 1 [])).1) 15 = textAtCol (tblOther15.getD 1 []) 15 := by
  constructor
  · exact (claimC2_amended.1 11 6 (some 14) (some 'C') ("018769-025") ("left")
      (tblOther15.getD 1 [])).1 (by decide) (by decide)
  · exact (claimC2_amended.2 (some 'C') (some 14) ("left") ("14-WHT")
      (some ("PSS1")) (some ("PSS1")) rsPlain.rules (tblOther15.getD 1 [])
      (by intro rule hr
          simp only [rsPlain, List.mem_singleton] at hr
          subst hr
          exact ⟨rfl, rfl⟩)).1 (by decide)

/-- Claim C3 is right and the code has a slip: the guard
`if gauge_from_name and gauge_from_name != 14: return 0` treats a parsed
filename gauge of 0 as absent (Python truthiness), so a file named
`s5DpC0.xml` — whose panel token yields panel C and gauge 0, a present
gauge different from 14 — still gets its rows crimped whenever the Wire ID
cross-check sees gauge 14. -/
theorem claimC3_bug :
    parseSectionPanelFromFilename ("s5DpC0.xml") = ("s5D", "pC0") ∧
    parsePanelGaugeFromPToken ("pC0") = (some 'C', some 0) ∧
    gaugeNameSkip (some 0) = false ∧
    (applyAutoCrimpEndpoints tblPss ("s5DpC0.xml") ("Order ID") ("018769-025")
        ("left")).map (fun out => (out.2, textAtCol (out.1.getD 1 []) 15)) =
      Except.ok (1, "018769-025") := by
  refine ⟨by rfl, by rfl, by rfl, by rfl⟩

/-- Claim C4: a successful crimp write into target column t also blanks
columns t-1 and t-2 with string-typed empties (both strategies; for the
rules strategy with columns large enough for t-2 to make sense in the
format); the `PSS1 FOO` example writes column 15, blanks 14 and 13 and
never touches 19; and one run never changes both columns 15 and 19 of the
same row (either strategy). -/
theorem claimC4 :
    (∀ (cw ca : Nat) (g : Option Nat) (pl : Option Char) (cid pref : String)
      (r : SRow), (autoCrimpRow cw ca g pl cid pref r).2 = 1 →
      (textAtCol ((autoCrimpRow cw ca g pl cid pref r).1) 15 = cid ∧
       dataAtCol ((autoCrimpRow cw ca g pl cid pref r).1) 14 = some ("", sType) ∧
       dataAtCol ((autoCrimpRow cw ca g pl cid pref r).1) 13 = some ("", sType) ∧
       textAtCol ((autoCrimpRow cw ca g pl cid pref r).1) 19 = textAtCol r 19) ∨
      (textAtCol ((autoCrimpRow cw ca g pl cid pref r).1) 19 = cid ∧
       dataAtCol ((autoCrimpRow cw ca g pl cid pref r).1) 18 = some ("", sType) ∧
       dataAtCol ((autoCrimpRow cw ca g pl cid pref r).1) 17 = some ("", sType) ∧
       textAtCol ((autoCrimpRow cw ca g pl cid pref r).1) 15 = textAtCol r 15)) ∧
    (∀ (plt : Option Char) (fg : Option Nat) (pd wt : String)
      (lt rt : Option String) (rules : List CrimpRule) (r : SRow),
      (∀ rule ∈ rules,
        2 < rule.colLeft.getD 15 ∧ 2 < rule.colRight.getD 19) →
      (tryCrimpRules plt fg pd wt lt rt rules r).2 = 1 →
      ∃ rule, rule ∈ rules ∧ ∃ tc,
        (tc = rule.colLeft.getD 15 ∨ tc = rule.colRight.getD 19) ∧
        textAtCol ((tryCrimpRules plt fg pd wt lt rt rules r).1) tc =
          rule.crimpId ∧
        dataAtCol ((tryCrimpRules plt fg pd wt lt rt rules r).1) (tc - 1) =
          some ("", sType) ∧
        dataAtCol ((tryCrimpRules plt fg pd wt lt rt rules r).1) (tc - 2) =
          some ("", sType)) ∧
    ((applyAutoCrimpEndpoints tblPssFoo ("s5DpC14.xml") ("Order ID")
        ("018769-025") ("left")).map
        (fun out => (out.2, textAtCol (out.1.getD 1 []) 15,
          dataAtCol (out.1.getD 1 []) 14, dataAtCol (out.1.getD 1 []) 13,
          cellAtCol (out.1.getD 1 []) 19)) =
      Except.ok (1, "018769-025", some ("", sType), some ("", sType), none)) ∧
    (∀ (cw ca : Nat) (g : Option Nat) (pl : Option Char) (cid pref : String)
      (r : SRow),
      (textAtCol ((autoCrimpRow cw ca g pl cid pref r).1) 15 ≠ textAtCol r 15 →
        textAtCol ((autoCrimpRow cw ca g pl cid pref r).1) 19 = textAtCol r 19) ∧
      (textAtCol ((autoCrimpRow cw ca g pl cid pref r).1) 19 ≠ textAtCol r 19 →
        textAtCol ((autoCrimpRow cw ca g pl cid pref r).1) 15 = textAtCol r 15)) ∧
    (∀ (plt : Option Char) (fg : Option Nat) (pd wt : String)
      (lt rt : Option String) (rules : List CrimpRule) (r : SRow),
      (textAtCol ((tryCrimpRules plt fg pd wt lt rt rules r).1) 15 ≠
          textAtCol r 15 →
        textAtCol ((tryCrimpRules plt fg pd wt lt rt rules r).1) 19 =
          textAtCol r 19) ∧
      (textAtCol ((tryCrimpRules plt fg pd wt lt rt rules r).1) 19 ≠
          textAtCol r 19 →
        textAtCol ((tryCrimpRules plt fg pd wt lt rt rules r).1) 15 =
          textAtCol r 15)) :=
  ⟨fun cw ca g pl cid pref r hone => autoCrimpRow_one_spec cw ca g pl cid pref r hone,
   fun plt fg pd wt lt rt rules r Hcols hone =>
     tryCrimpRules_one_spec plt fg pd wt lt rt rules r Hcols hone,
   by rfl,
   fun cw ca g pl cid pref r => autoCrimpRow_never_both cw ca g pl cid pref r,
   fun plt fg pd wt lt rt rules r => tryCrimpRules_never_both plt fg pd wt lt rt rules r⟩

/-- Witness for C4 at the `PSS1 FOO` row: the per-row engine reports one
change there, so the blanking disjunction holds at that concrete input. -/
theorem claimC4_witness :
    (textAtCol ((autoCrimpRow 11 6 (some 14) (some 'C') ("018769-025") ("left")
        (tblPssFoo.getD 1 [])).1) 15 = "018769-025" ∧
     dataAtCol ((autoCrimpRow 11 6 (some 14) (some 'C') ("018769-025") ("left")
        (tblPssFoo.getD 1 [])).1) 14 = some ("", sType) ∧
     dataAtCol ((autoCrimpRow 11 6 (some 14) (some 'C') ("018769-025") ("left")
        (tblPssFoo.getD 1 [])).1) 13 = some ("", sType) ∧
     textAtCol ((autoCrimpRow 11 6 (some 14) (some 'C') ("018769-025") ("left")
        (tblPssFoo.getD 1 [])).1) 19 = textAtCol (tblPssFoo.getD 1 []) 19) ∨
    (textAtCol ((autoCrimpRow 11 6 (some 14) (some 'C') ("018769-025") ("left")
        (tblPssFoo.getD 1 [])).1) 19 = "018769-025" ∧
     dataAtCol ((autoCrimpRow 11 6 (some 14) (some 'C') ("018769-025") ("left")
        (tblPssFoo.getD 1 [])).1) 18 = some ("", sType) ∧
     dataAtCol ((autoCrimpRow 11 6 (some 14) (some 'C') ("018769-025") ("left")
        (tblPssFoo.getD 1 [])).1) 17 = some ("", sType) ∧
     textAtCol ((autoCrimpRow 11 6 (some 14) (some 'C') ("018769-025") ("left")
        (tblPssFoo.getD 1 [])).1) 15 = textAtCol (tblPssFoo.getD 1 []) 15) :=
  claimC4.1 11 6 (some 14) (some 'C') ("018769-025") ("left")
    (tblPssFoo.getD 1 []) (by rfl)

/-- Claim C10 (implicit): the hardcoded engine is not idempotent.  Starting
from the `PSS1` row, the first run writes the crimp id to column 15; the
second run, seeing column 15 already holding exactly the crimp id and
column 19 blank, flips to the empty side and writes column 19 as well, so
the second run changes the already-processed table again. -/
theorem claimC10 :
    applyAutoCrimpEndpoints tblPss ("s5DpC14.xml") ("Order ID") ("018769-025")
        ("left") = Except.ok (tblPssRun1, 1) ∧
    textAtCol (tblPssRun1.getD 1 []) 15 = "018769-025" ∧
    textAtCol (tblPssRun1.getD 1 []) 19 = "" ∧
    applyAutoCrimpEndpoints tblPssRun1 ("s5DpC14.xml") ("Order ID")
        ("018769-025") ("left") = Except.ok (tblPssRun2, 1) ∧
    tblPssRun2 ≠ tblPssRun1 ∧
    textAtCol (tblPssRun2.getD 1 []) 15 = "018769-025" ∧
    textAtCol (tblPssRun2.getD 1 []) 19 = "018769-025" := by
  refine ⟨by rfl, by rfl, by rfl, by rfl, by decide, by rfl, by rfl⟩

-- ===== splitter lemmas =====

theorem mem_dedupFirst {κ : Type} [DecidableEq κ] (k : κ) (l : List κ) :
    k ∈ dedupFirst l ↔ k ∈ l := by
  induction l with
  | nil => simp [dedupFirst]
  | cons a l ih =>
    simp only [dedupFirst, List.mem_cons, List.mem_filter, decide_eq_true_eq]
    by_cases hka : k = a
    · simp [hka]
    · simp [hka, ih]

theorem nodup_dedupFirst {κ : Type} [DecidableEq κ] (l : List κ) :
    (dedupFirst l).Nodup := by
  induction l with
  | nil => simp [dedupFirst]
  | cons a l ih =>
    simp only [dedupFirst]
    rw [List.nodup_cons]
    refine ⟨?_, ih.filter _⟩
    intro hmem
    have := (List.mem_filter.mp hmem).2
    simp at this

theorem covered_flatten_perm {α κ : Type} [DecidableEq κ] (key : α → κ) :
    ∀ (K : List κ) (xs : List α), K.Nodup → (∀ x ∈ xs, key x ∈ K) →
    ((K.map (fun k => xs.filter (fun y => decide (key y = k)))).flatten).Perm xs := by
  intro K
  induction K with
  | nil =>
    intro xs _ hcov
    have hxs : xs = [] := by
      cases xs with
      | nil => rfl
      | cons x xs => exact absurd (hcov x (List.mem_cons_self _ _)) (by simp)
    simp [hxs]
  | cons k K ih =>
    intro xs hnd hcov
    have hnotk : k ∉ K := (List.nodup_cons.mp hnd).1
    have hndK : K.Nodup := (List.nodup_cons.mp hnd).2
    simp only [List.map_cons, List.flatten_cons]
    have hmap : K.map (fun q => xs.filter (fun y => decide (key y = q))) =
        K.map (fun q => (xs.filter (fun y => !decide (key y = k))).filter
          (fun y => decide (key y = q))) := by
      apply List.map_congr_left
      intro q hq
      rw [List.filter_filter]
      apply List.filter_congr
      intro y hy
      by_cases hcase : key y = q
      · have hqk : ¬ q = k := by
          intro he
          exact hnotk (he ▸ hq)
        simp [hcase, hqk]
      · simp [hcase]
    rw [hmap]
    have hcov2 : ∀ x ∈ xs.filter (fun y => !decide (key y = k)), key x ∈ K := by
      intro x hx
      have hx1 := (List.mem_filter.mp hx).1
      have hx2 := (List.mem_filter.mp hx).2
      simp only [Bool.not_eq_true', decide_eq_false_iff_not] at hx2
      rcases List.mem_cons.mp (hcov x hx1) with h | h
      · exact absurd h hx2
      · exact h
    have hperm := ih (xs.filter (fun y => !decide (key y = k))) hndK hcov2
    exact List.Perm.trans (List.Perm.append_left _ hperm)
      (List.filter_append_perm _ xs)

theorem chunks_aux {α : Type} (m : Nat) :
    ∀ (n : Nat) (rs : List α), rs.length ≤ n * m →
      (((List.range n).map (fun i => (rs.drop (i * m)).take m)).flatten) = rs := by
  intro n
  induction n with
  | zero =>
    intro rs h
    simp only [Nat.zero_mul, Nat.le_zero] at h
    have : rs = [] := List.eq_nil_of_length_eq_zero h
    simp [this]
  | succ n ih =>
    intro rs h
    rw [List.range_succ_eq_map]
    simp only [List.map_cons, List.flatten_cons, List.map_map]
    have h2 : (List.map ((fun i => (rs.drop (i * m)).take m) ∘ (· + 1))
        (List.range n)) = (List.range n).map
          (fun i => ((rs.drop m).drop (i * m)).take m) := by
      apply List.map_congr_left
      intro i _
      simp only [Function.comp_apply]
      rw [List.drop_drop]
      have hmm : (i + 1) * m = m + i * m := by ring
      rw [hmm]
    rw [h2]
    have hlen : (rs.drop m).length ≤ n * m := by
      have hs : (n + 1) * m = n * m + m := by ring
      simp only [List.length_drop]
      omega
    rw [ih (rs.drop m) hlen]
    simp only [Nat.zero_mul, List.drop_zero]
    exact List.take_append_drop m rs

theorem chunkCount_mul_ge (total m : Nat) (hm : 0 < m) :
    total ≤ chunkCount total m * m := by
  unfold chunkCount
  have hd := Nat.div_add_mod (total + m - 1) m
  have hlt : (total + m - 1) % m < m := Nat.mod_lt _ hm
  have hq : total ≤ ((total + m - 1) / m) * m := by
    rw [Nat.mul_comm]
    omega
  calc total ≤ ((total + m - 1) / m) * m := hq
    _ ≤ (max 1 ((total + m - 1) / m)) * m :=
        Nat.mul_le_mul_right _ (le_max_right _ _)

theorem chunkList_join {α : Type} (m : Nat) (hm : 0 < m) (rs : List α) :
    (chunkList m rs).flatten = rs := by
  unfold chunkList
  exact chunks_aux m (chunkCount rs.length m) rs (chunkCount_mul_ge rs.length m hm)

theorem chunkList_length_le {α : Type} (m : Nat) (rs : List α) :
    ∀ c ∈ chunkList m rs, c.length ≤ m := by
  intro c hc
  simp only [chunkList, List.mem_map, List.mem_range] at hc
  obtain ⟨i, _, rfl⟩ := hc
  simp only [List.length_take]
  omega

theorem chunkList_count {α : Type} (m : Nat) (hm : 0 < m) (rs : List α)
    (hne : rs ≠ []) :
    (chunkList m rs).length = (rs.length + m - 1) / m := by
  simp only [chunkList, List.length_map, List.length_range, chunkCount]
  have hpos : 0 < rs.length := List.length_pos.mpr hne
  have h1 : 1 ≤ (rs.length + m - 1) / m := by
    rw [Nat.one_le_div_iff hm]
    omega
  omega

theorem splitChunks_filter_aux {α κ : Type} [DecidableEq κ] (key : α → κ)
    (m : Nat) (xs : List α) (k : κ) :
    ∀ (K : List κ), K.Nodup →
    ((K.map (fun q => (chunkList m (xs.filter (fun y => decide (key y = q)))).map
        (fun c => (q, c)))).flatten).filter (fun kc => decide (kc.1 = k)) =
      if k ∈ K then
        (chunkList m (xs.filter (fun y => decide (key y = k)))).map (fun c => (k, c))
      else [] := by
  intro K
  induction K with
  | nil => intro _; simp
  | cons q K ih =>
    intro hnd
    have hnotq : q ∉ K := (List.nodup_cons.mp hnd).1
    have hndK : K.Nodup := (List.nodup_cons.mp hnd).2
    simp only [List.map_cons, List.flatten_cons, List.filter_append]
    rw [ih hndK]
    by_cases hqk : q = k
    · subst hqk
      have hhead : ((chunkList m (xs.filter (fun y => decide (key y = q)))).map
          (fun c => (q, c))).filter (fun kc => decide (kc.1 = q)) =
          (chunkList m (xs.filter (fun y => decide (key y = q)))).map
            (fun c => (q, c)) := by
        apply List.filter_eq_self.mpr
        intro a ha
        obtain ⟨c, _, rfl⟩ := List.mem_map.mp ha
        simp
      rw [hhead]
      simp [hnotq]
    · have hhead : ((chunkList m (xs.filter (fun y => decide (key y = q)))).map
          (fun c => (q, c))).filter (fun kc => decide (kc.1 = k)) = [] := by
        apply List.filter_eq_nil_iff.mpr
        intro a ha
        obtain ⟨c, _, rfl⟩ := List.mem_map.mp ha
        simp [hqk]
      rw [hhead]
      have hkq : ¬ k = q := fun he => hqk he.symm
      simp [hkq, List.mem_cons]

theorem splitChunks_filter {α κ : Type} [DecidableEq κ] (key : α → κ)
    (m : Nat) (xs : List α) (k : κ) :
    (splitChunks key m xs).filter (fun kc => decide (kc.1 = k)) =
      if k ∈ dedupFirst (xs.map key) then
        (chunkList m (xs.filter (fun y => decide (key y = k)))).map (fun c => (k, c))
      else [] := by
  simp only [splitChunks, gatherGroups, List.map_map]
  exact splitChunks_filter_aux key m xs k (dedupFirst (xs.map key))
    (nodup_dedupFirst _)

theorem splitChunks_chunk_le {α κ : Type} [DecidableEq κ] (key : α → κ)
    (m : Nat) (xs : List α) :
    ∀ kc ∈ splitChunks key m xs, kc.2.length ≤ m := by
  intro kc hkc
  simp only [splitChunks, List.mem_flatten, List.mem_map] at hkc
  obtain ⟨l, ⟨kg, hkg, rfl⟩, hkcl⟩ := hkc
  obtain ⟨c, hc, rfl⟩ := List.mem_map.mp hkcl
  exact chunkList_length_le m kg.2 c hc

theorem splitChunks_perm_aux {α κ : Type} [DecidableEq κ] (key : α → κ)
    (m : Nat) (hm : 0 < m) (xs : List α) :
    ∀ (K : List κ),
    (((K.map (fun q => (chunkList m (xs.filter (fun y => decide (key y = q)))).map
        (fun c => (q, c)))).flatten.map Prod.snd).flatten) =
      ((K.map (fun q => xs.filter (fun y => decide (key y = q)))).flatten) := by
  intro K
  induction K with
  | nil => rfl
  | cons q K ih =>
    simp only [List.map_cons, List.flatten_cons, List.map_append,
      List.flatten_append]
    rw [ih]
    congr 1
    rw [List.map_map]
    have hid : (Prod.snd ∘ fun c : List α => (q, c)) = id := rfl
    rw [hid, List.map_id]
    exact chunkList_join m hm _

theorem splitChunks_perm {α κ : Type} [DecidableEq κ] (key : α → κ)
    (m : Nat) (hm : 0 < m) (xs : List α) :
    (((splitChunks key m xs).map Prod.snd).flatten).Perm xs := by
  have heq : ((splitChunks key m xs).map Prod.snd).flatten =
      (((dedupFirst (xs.map key)).map
        (fun q => xs.filter (fun y => decide (key y = q)))).flatten) := by
    simp only [splitChunks, gatherGroups, List.map_map]
    exact splitChunks_perm_aux key m hm xs (dedupFirst (xs.map key))
  rw [heq]
  apply covered_flatten_perm
  · exact nodup_dedupFirst _
  · intro x hx
    exact (mem_dedupFirst _ _).mpr (List.mem_map_of_mem key hx)

theorem splitChunks_bucket {α κ : Type} [DecidableEq κ] (key : α → κ)
    (m : Nat) (hm : 0 < m) (xs : List α) (k : κ) :
    ((((splitChunks key m xs).filter (fun kc => decide (kc.1 = k))).map
      Prod.snd).flatten) = xs.filter (fun y => decide (key y = k)) := by
  rw [splitChunks_filter key m xs k]
  by_cases hk : k ∈ dedupFirst (xs.map key)
  · rw [if_pos hk, List.map_map]
    have hid : (Prod.snd ∘ fun c : List α => (k, c)) = id := rfl
    rw [hid, List.map_id]
    exact chunkList_join m hm _
  · rw [if_neg hk]
    have hemp : xs.filter (fun y => decide (key y = k)) = [] := by
      apply List.filter_eq_nil_iff.mpr
      intro y hy hky
      apply hk
      rw [mem_dedupFirst, List.mem_map]
      exact ⟨y, hy, by simpa using hky⟩
    simp [hemp]

theorem splitChunks_count {α κ : Type} [DecidableEq κ] (key : α → κ)
    (m : Nat) (hm : 0 < m) (xs : List α) (k : κ)
    (hne : xs.filter (fun y => decide (key y = k)) ≠ []) :
    ((splitChunks key m xs).filter (fun kc => decide (kc.1 = k))).length =
      ((xs.filter (fun y => decide (key y = k))).length + m - 1) / m := by
  rw [splitChunks_filter]
  have hk : k ∈ dedupFirst (xs.map key) := by
    obtain ⟨y, hy⟩ := List.exists_mem_of_ne_nil _ hne
    have hmem := List.mem_filter.mp hy
    rw [mem_dedupFirst, List.mem_map]
    exact ⟨y, hmem.1, by simpa using hmem.2⟩
  rw [if_pos hk, List.length_map]
  exact chunkList_count m hm _ hne

/-- Claim C1: whenever `split_by_gauge_color` finds a header row and a
`Wire ID` column and succeeds with `maxPer > 0`, its emitted (key, chunk)
list partitions the data rows: every chunk holds at most `maxPer` rows;
the concatenation of all chunk rows is a permutation of the data rows (no
row dropped or duplicated); for every key, concatenating that key's chunks
in order reconstructs exactly the ordered sublist of data rows with that
key; and every key with a nonempty bucket gets exactly
`ceil(bucketSize / maxPer)` chunks. -/
theorem claimC1 (table : List SRow) (src anchor : String) (m : Nat)
    (hm : 0 < m) (h colWire : Nat)
    (hh : findHeaderRowIndex pyStrip table anchor 80 = Except.ok h)
    (hw : fsHeaderCol (table.getD h []) ("Wire ID") = some colWire)
    (out : List ((String × Bool) × List SRow))
    (hout : splitByGaugeColor table src anchor m = Except.ok out) :
    (∀ kc ∈ out, kc.2.length ≤ m) ∧
    (((out.map Prod.snd).flatten).Perm (table.drop (h + 1))) ∧
    (∀ k : String × Bool,
      (((out.filter (fun kc => decide (kc.1 = k))).map Prod.snd).flatten) =
        (table.drop (h + 1)).filter
          (fun r => decide (groupKeyOfRow colWire
            (fsHeaderCol (table.getD h []) ("Article ID")) r = k))) ∧
    (∀ k : String × Bool,
      (table.drop (h + 1)).filter
          (fun r => decide (groupKeyOfRow colWire
            (fsHeaderCol (table.getD h []) ("Article ID")) r = k)) ≠ [] →
      (out.filter (fun kc => decide (kc.1 = k))).length =
        (((table.drop (h + 1)).filter
          (fun r => decide (groupKeyOfRow colWire
            (fsHeaderCol (table.getD h []) ("Article ID")) r = k))).length
          + m - 1) / m) := by
  have hout2 : out = splitChunks
      (groupKeyOfRow colWire (fsHeaderCol (table.getD h []) ("Article ID")))
      m (table.drop (h + 1)) := by
    simp only [splitByGaugeColor, hh, hw] at hout
    exact (Except.ok.inj hout).symm
  subst hout2
  exact ⟨splitChunks_chunk_le _ _ _, splitChunks_perm _ _ hm _,
    fun k => splitChunks_bucket _ _ hm _ _,
    fun k hne => splitChunks_count _ _ hm _ _ hne⟩

/-- Witness for C1 on `tblSplit` with `maxPer = 1`: the splitter emits
three singleton chunks, and the PLCIO bucket reconstruction conjunct holds
at the key `(18WHT, true)`. -/
theorem claimC1_witness :
    0 < 1 ∧
    findHeaderRowIndex pyStrip tblSplit ("Order ID") 80 = Except.ok 0 ∧
    fsHeaderCol (tblSplit.getD 0 []) ("Wire ID") = some 2 ∧
    splitByGaugeColor tblSplit ("wires.xml") ("Order ID") 1 =
      Except.ok outSplit ∧
    ((((outSplit.filter
        (fun kc => decide (kc.1 = (("18WHT", true) : String × Bool)))).map
      Prod.snd).flatten) =
      (tblSplit.drop 1).filter
        (fun r => decide (groupKeyOfRow 2
          (fsHeaderCol (tblSplit.getD 0 []) ("Article ID")) r =
            (("18WHT", true) : String × Bool)))) := by
  refine ⟨by decide, by rfl, by rfl, by rfl, ?_⟩
  exact (claimC1 tblSplit ("wires.xml") ("Order ID") 1 (by decide) 0 2
    (by rfl) (by rfl) outSplit (by rfl)).2.2.1 (("18WHT", true))
